import Mathlib

/-!
# DocDB internal iterator and timestamp codec

A shallow embedding of

* `src/yb/docdb/internal_doc_iterator.cc` (`InternalDocIterator`), and
* `src/yb/common/timestamp.cc` (`Timestamp`),

followed by the properties established about them.

Byte strings (`KeyBytes`, `rocksdb::Slice`, `faststring`) are lists of
naturals, one per byte.  The objects the iterator only points to (the RocksDB
instance behind `iter_`, the `DocWriteBatchCache`, the seek counter) are
carried inside the iterator state, so that a call is a pure function from the
state before to the status returned and the state after.
-/

namespace yb

/-- A byte string: `KeyBytes`, `rocksdb::Slice`, `std::string`, `faststring`. -/
abbrev Bytes := List Nat

/-- The `Status` values returned by the embedded functions; the message text
built with `Substitute` is not part of the model. -/
inductive Status
  | OK
  | Corruption
  | NotFound
  deriving DecidableEq, Repr

/-- `class Timestamp`: its only data member is `v`, of type `uint64_t`. -/
structure Timestamp where
  v : Nat
  deriving DecidableEq, Repr

/-- The `n` low-order bytes of `v`, most significant first. -/
def BigEndianBytes : Nat → Nat → Bytes
  | 0, _ => []
  | n + 1, v => (v / 256 ^ n) % 256 :: BigEndianBytes n v

/-- The number whose big-endian bytes are `bs`. -/
def DecodeBigEndian (bs : Bytes) : Nat :=
  bs.foldl (fun acc b => acc * 256 + b) 0

/-- Modelled from the spec: `PutMemcmpableVarint64(faststring* dst, uint64_t v)`
(yb/util/memcmpable_varint.cc, not among the sources).  The spec asks of the
timestamp encoding only that it is order-preserving and can be decoded again;
the model is the variable-length layout the function is named after: one byte
up to 240, two bytes up to 2287, three bytes up to 67823, and otherwise a
length byte 250..255 followed by the 3..8 significant bytes, most significant
first.  The bytes are appended to `dst`. -/
def PutMemcmpableVarint64 (dst : Bytes) (v : Nat) : Bytes :=
  if v ≤ 240 then dst ++ [v]
  else if v ≤ 2287 then dst ++ [(v - 240) / 256 + 241, (v - 240) % 256]
  else if v ≤ 67823 then dst ++ [249, (v - 2288) / 256, (v - 2288) % 256]
  else if v < 2 ^ 24 then dst ++ 250 :: BigEndianBytes 3 v
  else if v < 2 ^ 32 then dst ++ 251 :: BigEndianBytes 4 v
  else if v < 2 ^ 40 then dst ++ 252 :: BigEndianBytes 5 v
  else if v < 2 ^ 48 then dst ++ 253 :: BigEndianBytes 6 v
  else if v < 2 ^ 56 then dst ++ 254 :: BigEndianBytes 7 v
  else dst ++ 255 :: BigEndianBytes 8 v

/-- Modelled from the spec: `GetMemcmpableVarint64(Slice* input, uint64_t* value)`
(yb/util/memcmpable_varint.cc, not among the sources), the decoder of the
layout of `PutMemcmpableVarint64`.  The result is `none` where the function
returns false (empty or truncated input), and otherwise the decoded value with
the input that remains. -/
def GetMemcmpableVarint64 (input : Bytes) : Option (Nat × Bytes) :=
  match input with
  | [] => none
  | z0 :: rest =>
    if z0 ≤ 240 then some (z0, rest)
    else if z0 ≤ 248 then
      match rest with
      | b1 :: r => some ((z0 - 241) * 256 + b1 + 240, r)
      | [] => none
    else if z0 = 249 then
      match rest with
      | b1 :: b2 :: r => some (2288 + 256 * b1 + b2, r)
      | _ => none
    else if z0 ≤ 255 then
      if rest.length < z0 - 247 then none
      else some (DecodeBigEndian (rest.take (z0 - 247)), rest.drop (z0 - 247))
    else none

namespace Timestamp

/-- `Timestamp::DecodeFrom(Slice* input)` (timestamp.cc, lines 35-37): the
boolean returned, the timestamp afterwards and the input that remains. -/
def DecodeFrom (self : Timestamp) (input : Bytes) : Bool × Timestamp × Bytes :=
  match GetMemcmpableVarint64 input with
  | some (value, rest) => (true, { v := value }, rest)
  | none => (false, self, input)

/-- `Timestamp::EncodeTo(faststring* dst)` (timestamp.cc, lines 39-41). -/
def EncodeTo (self : Timestamp) (dst : Bytes) : Bytes :=
  PutMemcmpableVarint64 dst self.v

/-- `Timestamp::ToUint64()` (timestamp.cc, lines 52-54). -/
def ToUint64 (self : Timestamp) : Nat :=
  self.v

/-- `Timestamp::FromUint64(uint64_t value)` (timestamp.cc, lines 56-59): the
status returned and the timestamp afterwards. -/
def FromUint64 (_self : Timestamp) (value : Nat) : Status × Timestamp :=
  (Status.OK, { v := value })

end Timestamp

namespace docdb

/-- Modelled from the spec: `enum class Trilean` (yb/util/trilean.h, not among
the sources).  Spec, data model: "Trilean existence state: Unknown | True |
False". -/
inductive Trilean
  | kFalse
  | kTrue
  | kUnknown
  deriving DecidableEq, Repr

/-- Modelled from the spec: `ToTrilean(bool)` (yb/util/trilean.h, not among
the sources); `true` becomes `kTrue` and `false` becomes `kFalse`. -/
def ToTrilean (b : Bool) : Trilean :=
  if b then Trilean.kTrue else Trilean.kFalse

/-- Modelled from the spec: the scalar kinds of a tagged primitive value
("string, number, boolean, or null"). -/
inductive ScalarKind
  | kString
  | kNumber
  | kBoolean
  | kNull
  deriving DecidableEq, Repr

/-- Modelled from the spec: `enum class ValueType` (yb/docdb/value_type.h, not
among the sources).  Spec, data model: "Value-type is one of: Object, Array,
Tombstone (deletion marker), or a scalar kind"; `kInvalidValueType` and
`kTombstone` are the two enumerators the source names. -/
inductive ValueType
  | kInvalidValueType
  | kObject
  | kArray
  | kTombstone
  | kScalar (kind : ScalarKind)
  deriving DecidableEq, Repr

/-- Modelled from the spec: `class PrimitiveValue`
(yb/docdb/primitive_value.h, not among the sources), a sub-key component:
"a tagged primitive value: string, number, boolean, or null". -/
inductive PrimitiveValue
  | String (s : Bytes)
  | Number (n : Int)
  | Boolean (b : Bool)
  | Null
  deriving DecidableEq, Repr

/-- The parts of the key/value encoding that `SeekToKeyPrefix` uses and whose
definitions live in files that are not among the sources
(yb/docdb/doc_kv_util.h, yb/docdb/value_type.h, yb/docdb/primitive_value.cc).
They are parameters of the embedding: the properties of `SeekToKeyPrefix`
hold for every choice. -/
structure KeyValueCodec where
  /-- The constant `kBytesPerTimestamp`. -/
  kBytesPerTimestamp : Nat
  /-- The function `DecodeValueType(const rocksdb::Slice& value)`. -/
  DecodeValueType : Bytes → ValueType
  /-- The function `DecodeTimestampFromKey(const rocksdb::Slice& key, int pos)`. -/
  DecodeTimestampFromKey : Bytes → Nat → Timestamp
  /-- The bytes that `PrimitiveValue::AppendToKey` appends for a sub-key. -/
  PrimitiveValueKeyBytes : PrimitiveValue → Bytes
  /-- The bytes that `KeyBytes::AppendTimestamp` appends for a timestamp. -/
  TimestampKeyBytes : Timestamp → Bytes

/-- Bytewise comparison `a ≤ b` of two byte strings, the order of the RocksDB
bytewise comparator (`memcmp` on the common length, then the shorter first). -/
def BytesLE : Bytes → Bytes → Bool
  | [], _ => true
  | _ :: _, [] => false
  | a :: as, b :: bs => if a < b then true else if b < a then false else BytesLE as bs

/-- Modelled from the spec: the ordered key-value store behind `iter_`
("keys are compared lexicographically as raw bytes"): its key/value pairs in
key order. -/
abbrev RocksDB := List (Bytes × Bytes)

/-- Modelled from the spec: `rocksdb::Iterator::Seek` ("seek(k) positions at
the first key ≥ k").  The result is the entry the iterator stands on, `none`
when the iterator is not valid. -/
def RocksDB.Seek (db : RocksDB) (target : Bytes) : Option (Bytes × Bytes) :=
  db.find? (fun e => BytesLE target e.1)

/-- Modelled from the spec: `KeyBytes::IsPrefixOf(const rocksdb::Slice&)`
(yb/docdb/doc_kv_util.h, not among the sources): "the found key ... share[s]
the prefix as a byte-prefix". -/
def IsPrefixOf (key_bytes slice : Bytes) : Bool :=
  key_bytes.isPrefixOf slice

/-- Modelled from the spec: `PrimitiveValue::AppendToKey(KeyBytes*)`
(yb/docdb/primitive_value.cc, not among the sources): "extends the current
prefix by one path segment (pure byte-append ...)".  The result is the key
afterwards. -/
def AppendToKey (c : KeyValueCodec) (subkey : PrimitiveValue) (key_bytes : Bytes) : Bytes :=
  key_bytes ++ c.PrimitiveValueKeyBytes subkey

/-- Modelled from the spec: `KeyBytes::AppendTimestamp(Timestamp)`
(yb/docdb/doc_kv_util.h, not among the sources): "appending a timestamp to an
existing prefix is a pure byte-append (no re-encoding of preceding bytes)".
The result is the key afterwards. -/
def AppendTimestamp (c : KeyValueCodec) (timestamp : Timestamp) (key_bytes : Bytes) : Bytes :=
  key_bytes ++ c.TimestampKeyBytes timestamp

/-- Modelled from the spec: `DocWriteBatchCache`
(yb/docdb/doc_write_batch_cache.h, not among the sources): "a bounded,
batch-scoped mapping from encoded key prefix to the most recently observed
(timestamp, type) pair"; the entries put so far, the most recent first. -/
abbrev DocWriteBatchCache := List (Bytes × (Timestamp × ValueType))

/-- Modelled from the spec: `DocWriteBatchCache::Get`,
"get(prefix) -> optional (timestamp, type)". -/
def DocWriteBatchCache.Get (cache : DocWriteBatchCache) (encoded_key : Bytes) :
    Option (Timestamp × ValueType) :=
  List.lookup encoded_key cache

/-- Modelled from the spec: `DocWriteBatchCache::Put`,
"put(prefix, timestamp, type)"; the new entry hides an older one for the same
prefix. -/
def DocWriteBatchCache.Put (cache : DocWriteBatchCache) (encoded_key : Bytes)
    (gen_ts : Timestamp) (value_type : ValueType) : DocWriteBatchCache :=
  (encoded_key, (gen_ts, value_type)) :: cache

/-- The state of an `InternalDocIterator` together with the objects it points
to.  `iter_` is the entry the RocksDB iterator stands on (`none`: not valid);
`num_rocksdb_seeks_` is `none` for a null counter pointer.  The counter is a C
`int`; its overflow is undefined behaviour and is not modelled. -/
structure InternalDocIterator where
  rocksdb : RocksDB
  iter_ : Option (Bytes × Bytes)
  doc_write_batch_cache_ : DocWriteBatchCache
  key_prefix_ : Bytes
  subdoc_type_ : ValueType
  subdoc_ts_ : Timestamp
  subdoc_exists_ : Trilean
  num_rocksdb_seeks_ : Option Int
  deriving DecidableEq, Repr

namespace InternalDocIterator

/-- `InternalDocIterator::SeekToKeyPrefix` (internal_doc_iterator.cc, lines
71-159).  Sizes are naturals: the narrowing of the expected key size to `int`
is exact for keys shorter than 2^31 bytes.  The comparison of two timestamps
(`operator>` of `Timestamp`) is the comparison of their values `v`.
`HasMoreData()` (internal_doc_iterator.h, not among the sources) is read from
the spec ("If no such key exists ...") as: the store iterator is valid, that
is, `iter_` is not `none`. -/
def SeekToKeyPrefix (c : KeyValueCodec) (it : InternalDocIterator) :
    Status × InternalDocIterator :=
  let prev_subdoc_exists := it.subdoc_exists_
  let prev_subdoc_ts := it.subdoc_ts_
  let it := { it with subdoc_exists_ := Trilean.kFalse,
                      subdoc_type_ := ValueType.kInvalidValueType }
  match it.doc_write_batch_cache_.Get it.key_prefix_ with
  | some cached_ts_and_type =>
    let it := { it with subdoc_ts_ := cached_ts_and_type.1 }
    let it := { it with subdoc_type_ := cached_ts_and_type.2 }
    let it := { it with
      subdoc_exists_ := ToTrilean (decide (it.subdoc_type_ ≠ ValueType.kTombstone)) }
    (Status.OK, it)
  | none =>
    -- ROCKSDB_SEEK(iter_.get(), key_prefix_.AsSlice())
    let it := { it with iter_ := it.rocksdb.Seek it.key_prefix_ }
    let it := { it with num_rocksdb_seeks_ := it.num_rocksdb_seeks_.map (fun n => n + 1) }
    match it.iter_ with
    | none =>
      -- !HasMoreData()
      (Status.OK, { it with subdoc_exists_ := Trilean.kFalse })
    | some (key, value) =>
      if IsPrefixOf it.key_prefix_ key then
        let it := { it with subdoc_type_ := c.DecodeValueType value }
        let expected_key_size := it.key_prefix_.length + 1 + c.kBytesPerTimestamp
        if key.length ≠ expected_key_size then
          (Status.Corruption, it)
        else
          let it := { it with
            subdoc_ts_ := c.DecodeTimestampFromKey key (key.length - c.kBytesPerTimestamp) }
          if prev_subdoc_exists ≠ Trilean.kUnknown ∧ prev_subdoc_ts.v > it.subdoc_ts_.v then
            (Status.OK, { it with subdoc_exists_ := Trilean.kFalse })
          else
            let it := { it with
              doc_write_batch_cache_ :=
                it.doc_write_batch_cache_.Put it.key_prefix_ it.subdoc_ts_ it.subdoc_type_ }
            if it.subdoc_type_ ≠ ValueType.kTombstone then
              (Status.OK, { it with subdoc_exists_ := ToTrilean true })
            else
              (Status.OK, it)
      else
        (Status.OK, { it with subdoc_exists_ := Trilean.kFalse })

/-- `InternalDocIterator::AppendToPrefix` (internal_doc_iterator.cc, lines
51-53). -/
def AppendToPrefix (c : KeyValueCodec) (subkey : PrimitiveValue) (it : InternalDocIterator) :
    InternalDocIterator :=
  { it with key_prefix_ := AppendToKey c subkey it.key_prefix_ }

/-- `InternalDocIterator::AppendTimestampToPrefix` (internal_doc_iterator.cc,
lines 55-57). -/
def AppendTimestampToPrefix (c : KeyValueCodec) (timestamp : Timestamp)
    (it : InternalDocIterator) : InternalDocIterator :=
  { it with key_prefix_ := AppendTimestamp c timestamp it.key_prefix_ }

/-- Modelled from the spec: `InternalDocIterator::SetDocumentKey` (defined in
internal_doc_iterator.h, not among the sources): "resets the prefix to the
document root; discards all deeper path state.  Resets existence state to
Unknown." -/
def SetDocumentKey (encoded_doc_key : Bytes) (it : InternalDocIterator) : InternalDocIterator :=
  { it with key_prefix_ := encoded_doc_key, subdoc_exists_ := Trilean.kUnknown }

/-- `InternalDocIterator::SeekToDocument` (internal_doc_iterator.cc, lines
40-43). -/
def SeekToDocument (c : KeyValueCodec) (encoded_doc_key : Bytes) (it : InternalDocIterator) :
    Status × InternalDocIterator :=
  SeekToKeyPrefix c (SetDocumentKey encoded_doc_key it)

/-- The constructor `InternalDocIterator::InternalDocIterator`
(internal_doc_iterator.cc, lines 31-38): a fresh store iterator (not
positioned), an empty key prefix, existence `kUnknown`.  The constructor does
not set `subdoc_type_` and `subdoc_ts_`; their initial values are arguments. -/
def New (rocksdb : RocksDB) (doc_write_batch_cache : DocWriteBatchCache)
    (num_rocksdb_seeks : Option Int) (type0 : ValueType) (ts0 : Timestamp) :
    InternalDocIterator :=
  { rocksdb := rocksdb
    iter_ := none
    doc_write_batch_cache_ := doc_write_batch_cache
    key_prefix_ := []
    subdoc_type_ := type0
    subdoc_ts_ := ts0
    subdoc_exists_ := Trilean.kUnknown
    num_rocksdb_seeks_ := num_rocksdb_seeks }

/-- One append to the key prefix: `AppendToPrefix` or
`AppendTimestampToPrefix`. -/
inductive PrefixAppend
  | Subkey (subkey : PrimitiveValue)
  | Timestamp (timestamp : yb.Timestamp)
  deriving DecidableEq, Repr

/-- The iterator after one append. -/
def ApplyAppend (c : KeyValueCodec) (it : InternalDocIterator) : PrefixAppend → InternalDocIterator
  | PrefixAppend.Subkey subkey => AppendToPrefix c subkey it
  | PrefixAppend.Timestamp timestamp => AppendTimestampToPrefix c timestamp it

/-- The key prefixes produced, in order, by a sequence of appends. -/
def PrefixesAfter (c : KeyValueCodec) (it : InternalDocIterator) : List PrefixAppend → List Bytes
  | [] => []
  | op :: ops => (ApplyAppend c it op).key_prefix_ :: PrefixesAfter c (ApplyAppend c it op) ops

end InternalDocIterator

/-! ## A concrete encoding, for the scenarios -/

/-- Modelled from the spec: the byte layout used in the scenarios.  The
definitions of the encoding are not among the sources; what the model takes
from them is the layout shown in the comment of `SeekToKeyPrefix` (lines
131-135): under one document key the entries `[TS(38)]`, `[TS(37)]`,
`[TS(36)]`, `[TS(1)]` come first, later timestamps first, and the entry
`["y", TS(35)]` of a sub-key comes after them.  So the timestamp tag is
smaller than every sub-key tag and the timestamp bytes are the big-endian
bytes of the complement of the timestamp.  `kBytesPerTimestamp` is 8, the
width of the `uint64_t` value.  A string sub-key is its tag, its bytes (none of
them zero) and two zero bytes. -/
def ModelCodec : KeyValueCodec :=
  { kBytesPerTimestamp := 8
    DecodeValueType := fun value =>
      match value with
      | [] => ValueType.kInvalidValueType
      | 123 :: _ => ValueType.kObject
      | 91 :: _ => ValueType.kArray
      | 88 :: _ => ValueType.kTombstone
      | 36 :: _ => ValueType.kScalar ScalarKind.kString
      | 73 :: _ => ValueType.kScalar ScalarKind.kNumber
      | 84 :: _ => ValueType.kScalar ScalarKind.kBoolean
      | 70 :: _ => ValueType.kScalar ScalarKind.kBoolean
      | 78 :: _ => ValueType.kScalar ScalarKind.kNull
      | _ => ValueType.kInvalidValueType
    DecodeTimestampFromKey := fun key pos =>
      { v := 2 ^ 64 - 1 - DecodeBigEndian ((key.drop pos).take 8) }
    PrimitiveValueKeyBytes := fun subkey =>
      match subkey with
      | PrimitiveValue.String s => 36 :: s ++ [0, 0]
      | PrimitiveValue.Number n => 73 :: BigEndianBytes 8 (Int.toNat (n + 2 ^ 63))
      | PrimitiveValue.Boolean true => [84]
      | PrimitiveValue.Boolean false => [70]
      | PrimitiveValue.Null => [78]
    TimestampKeyBytes := fun timestamp => 35 :: BigEndianBytes 8 (2 ^ 64 - 1 - timestamp.v) }

/-- Modelled from the spec: a write to the ordered store ("Byte-lexicographic
key ordering is assumed"): the pair is inserted at its place in key order and
replaces a pair with the same key. -/
def RocksDB.Put : RocksDB → Bytes → Bytes → RocksDB
  | [], key, value => [(key, value)]
  | (k, v) :: rest, key, value =>
    if key = k then (key, value) :: rest
    else if BytesLE key k then (key, value) :: (k, v) :: rest
    else (k, v) :: RocksDB.Put rest key value

/-- The encoded document key of the document `"a"`: its one string component
and the end-of-group byte. -/
def ScenarioDocKey : Bytes :=
  ModelCodec.PrimitiveValueKeyBytes (PrimitiveValue.String [97]) ++ [33]

/-- The sub-key `"y"`. -/
def ScenarioSubkey : PrimitiveValue :=
  PrimitiveValue.String [121]

/-- The key of the entry written for `"a"` at timestamp `t`. -/
def ScenarioRootKey (t : Nat) : Bytes :=
  AppendTimestamp ModelCodec { v := t } ScenarioDocKey

/-- The key of the entry written for `"a.y"` at timestamp `t`. -/
def ScenarioChildKey (t : Nat) : Bytes :=
  AppendTimestamp ModelCodec { v := t } (AppendToKey ModelCodec ScenarioSubkey ScenarioDocKey)

/-- The store after the object marker for `"a"` at T=1 and `"a.y" = "hello"`
at T=2 have been written. -/
def ScenarioStore1 : RocksDB :=
  ((RocksDB.Put [] (ScenarioRootKey 1) [123]).Put (ScenarioChildKey 2)
    [36, 104, 101, 108, 108, 111])

/-- The store after the object marker for `"a"` at T=3 has been written as
well. -/
def ScenarioStore2 : RocksDB :=
  ScenarioStore1.Put (ScenarioRootKey 3) [123]

/-- The key prefix of `"a.y"`: the document key of `"a"` followed by the
sub-key `"y"`. -/
def ScenarioChildKeyPrefix : Bytes :=
  AppendToKey ModelCodec ScenarioSubkey ScenarioDocKey

/-- A store whose only key starts with the document key of `"a"` and is cut
off after the first timestamp byte. -/
def TruncatedStore : RocksDB :=
  [(ScenarioDocKey ++ [35, 255], [123])]

/-- An iterator state given by its store, cache, key prefix and the existence
state and timestamp left by an earlier seek; the store iterator is not
positioned and the seek counter is at zero. -/
def ExampleState (db : RocksDB) (cache : DocWriteBatchCache) (key_bytes : Bytes)
    (subdoc_exists : Trilean) (subdoc_ts : Timestamp) : InternalDocIterator :=
  { rocksdb := db
    iter_ := none
    doc_write_batch_cache_ := cache
    key_prefix_ := key_bytes
    subdoc_type_ := ValueType.kObject
    subdoc_ts_ := subdoc_ts
    subdoc_exists_ := subdoc_exists
    num_rocksdb_seeks_ := some 0 }

/-- The sub-key `"z"`. -/
def ChainGrandchildSubkey : PrimitiveValue :=
  PrimitiveValue.String [122]

/-- The key prefix of `"a.y.z"`. -/
def ChainGrandchildKeyPrefix : Bytes :=
  AppendToKey ModelCodec ChainGrandchildSubkey ScenarioChildKeyPrefix

/-- The key of the entry written for `"a.y.z"` at timestamp `t`. -/
def ChainGrandchildKey (t : Nat) : Bytes :=
  AppendTimestamp ModelCodec { v := t } ChainGrandchildKeyPrefix

/-- A store with an object marker for `"a"` at T=10, an object marker for
`"a.y"` at T=5 and the string `"hello"` for `"a.y.z"` at T=7. -/
def ChainStore : RocksDB :=
  ((RocksDB.Put [] (ScenarioRootKey 10) [123]).Put (ScenarioChildKey 5) [123]).Put
    (ChainGrandchildKey 7) [36, 104, 101, 108, 108, 111]

/-- The result of resolving `"a"` over `ChainStore`: a new iterator with an
empty cache and a seek counter at zero, then `SeekToDocument("a")`. -/
def ChainSeekRoot : Status × InternalDocIterator :=
  InternalDocIterator.SeekToDocument ModelCodec ScenarioDocKey
    (InternalDocIterator.New ChainStore [] (some 0) ValueType.kInvalidValueType { v := 0 })

/-- The iterator before `"a.y"` is resolved: `AppendToPrefix("y")` after the
seek of `"a"`. -/
def ChainBeforeChild : InternalDocIterator :=
  InternalDocIterator.AppendToPrefix ModelCodec ScenarioSubkey ChainSeekRoot.2

/-- The result of resolving `"a.y"`: `SeekToKeyPrefix` after the append. -/
def ChainSeekChild : Status × InternalDocIterator :=
  InternalDocIterator.SeekToKeyPrefix ModelCodec ChainBeforeChild

/-- The result of resolving `"a.y.z"`: `AppendToPrefix("z")` after the seek of
`"a.y"`, then `SeekToKeyPrefix`. -/
def ChainSeekGrandchild : Status × InternalDocIterator :=
  InternalDocIterator.SeekToKeyPrefix ModelCodec
    (InternalDocIterator.AppendToPrefix ModelCodec ChainGrandchildSubkey ChainSeekChild.2)

end docdb

/-! ## The system catalog writer -/

namespace master

/-- The statement types `QLWriteRequestPB::QLStmtType` named in
sys_catalog-internal.h. -/
inductive QLStmtType
  | QL_STMT_INSERT
  | QL_STMT_DELETE
  | QL_STMT_UPDATE
  deriving DecidableEq, Repr

/-- The value held by a `QLValuePB`: nothing yet, the `binary_value` or the
`int8_value`. -/
inductive QLValuePB
  | unset
  | binary_value (value : String)
  | int8_value (value : Int)
  deriving DecidableEq, Repr

/-- The message `QLExpressionPB`, as far as the writer fills it: its `value`. -/
structure QLExpressionPB where
  value : QLValuePB
  deriving DecidableEq, Repr

/-- The message `QLColumnValuePB`: the optional `column_id` and the `expr`. -/
structure QLColumnValuePB where
  column_id : Option Int
  expr : QLExpressionPB
  deriving DecidableEq, Repr

/-- The message `QLWriteRequestPB`, as far as the writer fills it: the optional
`type` and the repeated `column_values` and `range_column_values`. -/
structure QLWriteRequestPB where
  type : Option QLStmtType
  column_values : List QLColumnValuePB
  range_column_values : List QLExpressionPB
  deriving DecidableEq, Repr

/-- The message `tserver::WriteRequestPB`, as far as the writer fills it: the
`tablet_id` and the repeated `ql_write_batch`. -/
structure WriteRequestPB where
  tablet_id : String
  ql_write_batch : List QLWriteRequestPB
  deriving DecidableEq, Repr

/-- The members of `class Schema` (yb/common/schema.h, not among the sources)
that the writer calls; they are parameters of the embedding. -/
structure Schema where
  /-- The function `Schema::find_column(name)`: a column index, or
  `kColumnNotFound`. -/
  find_column : String → Nat
  /-- The function `Schema::column_id(index)`. -/
  column_id : Nat → Int

/-- The constants and the serializer that `MutateItem` uses and whose
definitions are not among the sources (yb/common/schema.h,
yb/master/sys_catalog.h, yb/util/pb_util.h); they are parameters of the
embedding.  `PB` is the type of the protobuf held by an item. -/
structure CatalogEnv (PB : Type) where
  /-- The constant `Schema::kColumnNotFound`. -/
  kColumnNotFound : Nat
  /-- The constant `kSysCatalogTableColMetadata`, the name of the metadata
  column. -/
  kSysCatalogTableColMetadata : String
  /-- The function `pb_util::SerializeToString(pb, &buf)`: `none` where it
  returns false, and otherwise the bytes written to the buffer. -/
  SerializeToString : PB → Option String

/-- What `MutateItem` reads of a `MetadataCowWrapper<PersistentDataEntryClass>`:
`id()`, the protobuf `metadata().dirty().pb`, and the `int` returned by
`PersistentDataEntryClass::type()`. -/
structure MetadataCowWrapper (PB : Type) where
  id : String
  pb : PB
  entry_type : Int

/-- The conversion of an `int` to `int8_t` at the call of `SetInt8Value`:
the value modulo 2^8, in the range -128..127. -/
def ToInt8 (n : Int) : Int :=
  (n + 128) % 256 - 128

/-- The state of a `SysCatalogWriter`. -/
structure SysCatalogWriter where
  schema_with_ids_ : Schema
  req_ : WriteRequestPB
  leader_term_ : Int

namespace SysCatalogWriter

/-- `SysCatalogWriter::SetColumnId` (sys_catalog-internal.h, lines 107-114):
the status returned and the column value afterwards. -/
def SetColumnId {PB : Type} (env : CatalogEnv PB) (w : SysCatalogWriter) (column_name : String)
    (col_pb : QLColumnValuePB) : Status × QLColumnValuePB :=
  let column_index := w.schema_with_ids_.find_column column_name
  if column_index = env.kColumnNotFound then
    (Status.NotFound, col_pb)
  else
    (Status.OK, { col_pb with column_id := some (w.schema_with_ids_.column_id column_index) })

/-- `SysCatalogWriter::SetBinaryValue` (lines 116-118): the expression
afterwards. -/
def SetBinaryValue (binary_value : String) (_expr_pb : QLExpressionPB) : QLExpressionPB :=
  { value := QLValuePB.binary_value binary_value }

/-- `SysCatalogWriter::SetInt8Value` (lines 120-122): the expression
afterwards.  The argument is an `int8_t`. -/
def SetInt8Value (int8_value : Int) (_expr_pb : QLExpressionPB) : QLExpressionPB :=
  { value := QLValuePB.int8_value int8_value }

/-- The writer after the last message of `ql_write_batch`, which `ql_write`
points to, has been given a new content. -/
def StoreWrite (w : SysCatalogWriter) (earlier : List QLWriteRequestPB)
    (ql_write : QLWriteRequestPB) : SysCatalogWriter :=
  { w with req_ := { w.req_ with ql_write_batch := earlier ++ [ql_write] } }

/-- `SysCatalogWriter::MutateItem` (sys_catalog-internal.h, lines 73-105): the
status returned and the writer afterwards.  `add_ql_write_batch()` appends a
new message to `req_`, and every later change goes to that message, also on
the paths that return early. -/
def MutateItem {PB : Type} (env : CatalogEnv PB) (w : SysCatalogWriter)
    (item : MetadataCowWrapper PB) (op_type : QLStmtType) : Status × SysCatalogWriter :=
  let is_write : Bool :=
    op_type = QLStmtType.QL_STMT_INSERT || op_type = QLStmtType.QL_STMT_UPDATE
  let earlier := w.req_.ql_write_batch
  -- QLWriteRequestPB* ql_write = req_.add_ql_write_batch()
  let ql_write : QLWriteRequestPB :=
    { type := none, column_values := [], range_column_values := [] }
  let ql_write := { ql_write with type := some op_type }
  let finish (ql_write : QLWriteRequestPB) : Status × SysCatalogWriter :=
    -- Add column type.
    let entity_type : QLExpressionPB := { value := QLValuePB.unset }
    let entity_type := SetInt8Value (ToInt8 item.entry_type) entity_type
    -- Add column id.
    let entity_id : QLExpressionPB := { value := QLValuePB.unset }
    let entity_id := SetBinaryValue item.id entity_id
    let ql_write := { ql_write with
      range_column_values := ql_write.range_column_values ++ [entity_type, entity_id] }
    (Status.OK, StoreWrite w earlier ql_write)
  if is_write then
    match env.SerializeToString item.pb with
    | none => (Status.Corruption, StoreWrite w earlier ql_write)
    | some metadata_buf =>
      -- Add the metadata column.
      let metadata : QLColumnValuePB := { column_id := none, expr := { value := QLValuePB.unset } }
      let r := SetColumnId env w env.kSysCatalogTableColMetadata metadata
      if r.1 ≠ Status.OK then
        (r.1, StoreWrite w earlier
          { ql_write with column_values := ql_write.column_values ++ [r.2] })
      else
        let metadata := { r.2 with expr := SetBinaryValue metadata_buf r.2.expr }
        finish { ql_write with column_values := ql_write.column_values ++ [metadata] }
  else
    finish ql_write

end SysCatalogWriter

/-- A schema with the columns `entry_type`, `entry_id` and `metadata`, whose
ids are 10, 11 and 12; a name that is not a column is answered with 99. -/
def ExampleSchema : Schema :=
  { find_column := fun name =>
      if name = "entry_type" then 0
      else if name = "entry_id" then 1
      else if name = "metadata" then 2
      else 99
    column_id := fun index => 10 + index }

/-- An environment for the examples: `kColumnNotFound` is 99, the metadata
column is called `metadata`, and a protobuf, here a string, serializes to
itself unless it is empty. -/
def ExampleEnv : CatalogEnv String :=
  { kColumnNotFound := 99
    kSysCatalogTableColMetadata := "metadata"
    SerializeToString := fun pb => if pb = "" then none else some pb }

/-- A writer over `ExampleSchema` whose request already holds one write. -/
def ExampleWriter : SysCatalogWriter :=
  { schema_with_ids_ := ExampleSchema
    req_ :=
      { tablet_id := "sys.catalog"
        ql_write_batch :=
          [{ type := some QLStmtType.QL_STMT_DELETE
             column_values := []
             range_column_values := [{ value := QLValuePB.int8_value 1 },
               { value := QLValuePB.binary_value "t0" }] }] }
    leader_term_ := 1 }

/-- An item of entry type 4 with id `t1`. -/
def ExampleItem : MetadataCowWrapper String :=
  { id := "t1", pb := "pb-bytes", entry_type := 4 }

end master

namespace docdb

/-! ## Properties of `SeekToKeyPrefix` -/

open InternalDocIterator

/-! ### The timestamp codec -/

/-- `BigEndianBytes n v` has `n` bytes. -/
theorem length_BigEndianBytes (n v : Nat) : (BigEndianBytes n v).length = n := by
  induction n with
  | zero => rfl
  | succ n ih => simp [BigEndianBytes, ih]

/-- Folding the big-endian bytes of `v` onto an accumulator. -/
theorem foldl_BigEndianBytes (n v acc : Nat) :
    (BigEndianBytes n v).foldl (fun acc b => acc * 256 + b) acc = acc * 256 ^ n + v % 256 ^ n := by
  induction n generalizing acc with
  | zero => simp [BigEndianBytes, Nat.mod_one]
  | succ n ih =>
    simp only [BigEndianBytes, List.foldl_cons, ih]
    rw [Nat.mod_pow_succ]
    ring

/-- Decoding the `n` big-endian bytes of `v` gives `v` modulo `256 ^ n`. -/
theorem DecodeBigEndian_BigEndianBytes (n v : Nat) :
    DecodeBigEndian (BigEndianBytes n v) = v % 256 ^ n := by
  simp [DecodeBigEndian, foldl_BigEndianBytes]

/-- `PutMemcmpableVarint64` appends to `dst` and leaves its bytes alone. -/
theorem PutMemcmpableVarint64_append (dst : Bytes) (v : Nat) :
    PutMemcmpableVarint64 dst v = dst ++ PutMemcmpableVarint64 [] v := by
  unfold PutMemcmpableVarint64
  repeat' split
  all_goals simp

/-- Decoding a length byte 250..255 followed by that many value bytes. -/
theorem GetMemcmpableVarint64_long (z0 n v : Nat) (rest : Bytes) (hz : 250 ≤ z0) (hz2 : z0 ≤ 255)
    (hn : z0 - 247 = n) (hv : v < 256 ^ n) :
    GetMemcmpableVarint64 (z0 :: BigEndianBytes n v ++ rest) = some (v, rest) := by
  have h1 : ¬ z0 ≤ 240 := by omega
  have h2 : ¬ z0 ≤ 248 := by omega
  have h3 : ¬ z0 = 249 := by omega
  simp only [GetMemcmpableVarint64, List.cons_append, h1, h2, h3, hz2, if_true, if_false, hn]
  have hl : (BigEndianBytes n v).length = n := length_BigEndianBytes n v
  simp [hl, List.take_append_of_le_length, List.drop_append_of_le_length,
    DecodeBigEndian_BigEndianBytes, Nat.mod_eq_of_lt hv]

/-- Decoding what `PutMemcmpableVarint64` wrote gives the value back and
stops at the end of the written bytes. -/
theorem GetMemcmpableVarint64_Put (v : Nat) (rest : Bytes) (hv : v < 2 ^ 64) :
    GetMemcmpableVarint64 (PutMemcmpableVarint64 [] v ++ rest) = some (v, rest) := by
  unfold PutMemcmpableVarint64
  split
  · simp [GetMemcmpableVarint64, *]
  split
  · rename_i h1 h2
    have a1 : ¬ (v - 240) / 256 + 241 ≤ 240 := by omega
    have a2 : (v - 240) / 256 + 241 ≤ 248 := by omega
    simp only [GetMemcmpableVarint64, List.nil_append, List.cons_append, a1, a2, if_true, if_false]
    simp
    omega
  split
  · simp [GetMemcmpableVarint64]
    omega
  split
  · exact GetMemcmpableVarint64_long 250 3 v rest (by omega) (by omega) rfl (by omega)
  split
  · exact GetMemcmpableVarint64_long 251 4 v rest (by omega) (by omega) rfl (by omega)
  split
  · exact GetMemcmpableVarint64_long 252 5 v rest (by omega) (by omega) rfl (by omega)
  split
  · exact GetMemcmpableVarint64_long 253 6 v rest (by omega) (by omega) rfl (by omega)
  split
  · exact GetMemcmpableVarint64_long 254 7 v rest (by omega) (by omega) rfl (by omega)
  · exact GetMemcmpableVarint64_long 255 8 v rest (by omega) (by omega) rfl (by omega)

/-! ### The branches of `SeekToKeyPrefix` -/

/-- The result of `SeekToKeyPrefix` on a cache hit. -/
theorem SeekToKeyPrefix_eq_of_hit (c : KeyValueCodec) (it : InternalDocIterator)
    (cached : Timestamp × ValueType)
    (hget : it.doc_write_batch_cache_.Get it.key_prefix_ = some cached) :
    SeekToKeyPrefix c it =
      (Status.OK, { it with
        subdoc_ts_ := cached.1
        subdoc_type_ := cached.2
        subdoc_exists_ :=
          if cached.2 = ValueType.kTombstone then Trilean.kFalse else Trilean.kTrue }) := by
  unfold SeekToKeyPrefix
  simp only [hget]
  by_cases hty : cached.2 = ValueType.kTombstone <;> simp [ToTrilean, hty]

/-- The result of `SeekToKeyPrefix` on a cache miss when the store has no key
at or after the prefix. -/
theorem SeekToKeyPrefix_eq_of_no_key (c : KeyValueCodec) (it : InternalDocIterator)
    (hget : it.doc_write_batch_cache_.Get it.key_prefix_ = none)
    (hseek : it.rocksdb.Seek it.key_prefix_ = none) :
    SeekToKeyPrefix c it =
      (Status.OK, { it with
        iter_ := none
        num_rocksdb_seeks_ := it.num_rocksdb_seeks_.map (fun n => n + 1)
        subdoc_type_ := ValueType.kInvalidValueType
        subdoc_exists_ := Trilean.kFalse }) := by
  unfold SeekToKeyPrefix
  simp only [hget, hseek]

/-- The result of `SeekToKeyPrefix` on a cache miss when the key found does not
start with the prefix. -/
theorem SeekToKeyPrefix_eq_of_other_key (c : KeyValueCodec) (it : InternalDocIterator)
    (key value : Bytes)
    (hget : it.doc_write_batch_cache_.Get it.key_prefix_ = none)
    (hseek : it.rocksdb.Seek it.key_prefix_ = some (key, value))
    (hpre : IsPrefixOf it.key_prefix_ key = false) :
    SeekToKeyPrefix c it =
      (Status.OK, { it with
        iter_ := some (key, value)
        num_rocksdb_seeks_ := it.num_rocksdb_seeks_.map (fun n => n + 1)
        subdoc_type_ := ValueType.kInvalidValueType
        subdoc_exists_ := Trilean.kFalse }) := by
  unfold SeekToKeyPrefix
  simp [hget, hseek, hpre]

/-- The result of `SeekToKeyPrefix` on a cache miss when the key found starts
with the prefix and has an unexpected length. -/
theorem SeekToKeyPrefix_eq_of_bad_length (c : KeyValueCodec) (it : InternalDocIterator)
    (key value : Bytes)
    (hget : it.doc_write_batch_cache_.Get it.key_prefix_ = none)
    (hseek : it.rocksdb.Seek it.key_prefix_ = some (key, value))
    (hpre : IsPrefixOf it.key_prefix_ key = true)
    (hlen : key.length ≠ it.key_prefix_.length + 1 + c.kBytesPerTimestamp) :
    SeekToKeyPrefix c it =
      (Status.Corruption, { it with
        iter_ := some (key, value)
        num_rocksdb_seeks_ := it.num_rocksdb_seeks_.map (fun n => n + 1)
        subdoc_type_ := c.DecodeValueType value
        subdoc_exists_ := Trilean.kFalse }) := by
  unfold SeekToKeyPrefix
  simp [hget, hseek, hpre, hlen]

/-- The result of `SeekToKeyPrefix` on a cache miss when the key found is well
formed and the entry is superseded by the level above. -/
theorem SeekToKeyPrefix_eq_of_superseded (c : KeyValueCodec) (it : InternalDocIterator)
    (key value : Bytes)
    (hget : it.doc_write_batch_cache_.Get it.key_prefix_ = none)
    (hseek : it.rocksdb.Seek it.key_prefix_ = some (key, value))
    (hpre : IsPrefixOf it.key_prefix_ key = true)
    (hlen : key.length = it.key_prefix_.length + 1 + c.kBytesPerTimestamp)
    (hprev : it.subdoc_exists_ ≠ Trilean.kUnknown)
    (hts : it.subdoc_ts_.v >
      (c.DecodeTimestampFromKey key (key.length - c.kBytesPerTimestamp)).v) :
    SeekToKeyPrefix c it =
      (Status.OK, { it with
        iter_ := some (key, value)
        num_rocksdb_seeks_ := it.num_rocksdb_seeks_.map (fun n => n + 1)
        subdoc_type_ := c.DecodeValueType value
        subdoc_ts_ := c.DecodeTimestampFromKey key (key.length - c.kBytesPerTimestamp)
        subdoc_exists_ := Trilean.kFalse }) := by
  unfold SeekToKeyPrefix
  simp only [hget, hseek, hpre]
  generalize c.DecodeTimestampFromKey key (key.length - c.kBytesPerTimestamp) = ts at hts ⊢
  simp [hlen, hprev, hts]

/-- The result of `SeekToKeyPrefix` on a cache miss when the key found is well
formed and the entry is not superseded. -/
theorem SeekToKeyPrefix_eq_of_fresh (c : KeyValueCodec) (it : InternalDocIterator)
    (key value : Bytes)
    (hget : it.doc_write_batch_cache_.Get it.key_prefix_ = none)
    (hseek : it.rocksdb.Seek it.key_prefix_ = some (key, value))
    (hpre : IsPrefixOf it.key_prefix_ key = true)
    (hlen : key.length = it.key_prefix_.length + 1 + c.kBytesPerTimestamp)
    (hnot : it.subdoc_exists_ = Trilean.kUnknown ∨
      it.subdoc_ts_.v ≤
        (c.DecodeTimestampFromKey key (key.length - c.kBytesPerTimestamp)).v) :
    SeekToKeyPrefix c it =
      (Status.OK, { it with
        iter_ := some (key, value)
        num_rocksdb_seeks_ := it.num_rocksdb_seeks_.map (fun n => n + 1)
        doc_write_batch_cache_ := it.doc_write_batch_cache_.Put it.key_prefix_
          (c.DecodeTimestampFromKey key (key.length - c.kBytesPerTimestamp))
          (c.DecodeValueType value)
        subdoc_type_ := c.DecodeValueType value
        subdoc_ts_ := c.DecodeTimestampFromKey key (key.length - c.kBytesPerTimestamp)
        subdoc_exists_ :=
          if c.DecodeValueType value = ValueType.kTombstone then Trilean.kFalse
          else Trilean.kTrue }) := by
  have hcond : ¬ (it.subdoc_exists_ ≠ Trilean.kUnknown ∧ it.subdoc_ts_.v >
      (c.DecodeTimestampFromKey key (key.length - c.kBytesPerTimestamp)).v) := by
    rintro ⟨h1, h2⟩
    rcases hnot with h | h
    · exact h1 h
    · omega
  unfold SeekToKeyPrefix
  simp only [hget, hseek, hpre]
  generalize c.DecodeTimestampFromKey key (key.length - c.kBytesPerTimestamp) = ts at hcond ⊢
  by_cases hty : c.DecodeValueType value = ValueType.kTombstone <;>
    simp [hlen, hcond, hty, ToTrilean]

/-- A Corruption status comes from the length check only: the cache missed and
the key found starts with the prefix and has an unexpected length. -/
theorem SeekToKeyPrefix_corruption_inv (c : KeyValueCodec) (it : InternalDocIterator)
    (hc : (SeekToKeyPrefix c it).1 = Status.Corruption) :
    it.doc_write_batch_cache_.Get it.key_prefix_ = none ∧
      ∃ key value, it.rocksdb.Seek it.key_prefix_ = some (key, value) ∧
        IsPrefixOf it.key_prefix_ key = true ∧
        key.length ≠ it.key_prefix_.length + 1 + c.kBytesPerTimestamp := by
  cases hget : it.doc_write_batch_cache_.Get it.key_prefix_ with
  | some cached =>
    rw [SeekToKeyPrefix_eq_of_hit c it cached hget] at hc
    exact absurd hc (by simp)
  | none =>
    cases hseek : it.rocksdb.Seek it.key_prefix_ with
    | none =>
      rw [SeekToKeyPrefix_eq_of_no_key c it hget hseek] at hc
      exact absurd hc (by simp)
    | some kv =>
      obtain ⟨key, value⟩ := kv
      cases hpre : IsPrefixOf it.key_prefix_ key with
      | false =>
        rw [SeekToKeyPrefix_eq_of_other_key c it key value hget hseek hpre] at hc
        exact absurd hc (by simp)
      | true =>
        by_cases hlen : key.length = it.key_prefix_.length + 1 + c.kBytesPerTimestamp
        · by_cases hsup : it.subdoc_exists_ ≠ Trilean.kUnknown ∧ it.subdoc_ts_.v >
              (c.DecodeTimestampFromKey key (key.length - c.kBytesPerTimestamp)).v
          · rw [SeekToKeyPrefix_eq_of_superseded c it key value hget hseek hpre hlen
              hsup.1 hsup.2] at hc
            exact absurd hc (by simp)
          · have hnot : it.subdoc_exists_ = Trilean.kUnknown ∨ it.subdoc_ts_.v ≤
                (c.DecodeTimestampFromKey key (key.length - c.kBytesPerTimestamp)).v := by
              by_cases hu : it.subdoc_exists_ = Trilean.kUnknown
              · exact Or.inl hu
              · exact Or.inr (Nat.le_of_not_lt (fun hlt => hsup ⟨hu, hlt⟩))
            rw [SeekToKeyPrefix_eq_of_fresh c it key value hget hseek hpre hlen hnot] at hc
            exact absurd hc (by simp)
        · exact ⟨rfl, key, value, rfl, hpre, hlen⟩

/-- `AppendToPrefix` changes the key prefix only: the existence state and the
timestamp of the level above are still there for the next seek. -/
theorem AppendToPrefix_keeps_resolution (c : KeyValueCodec) (subkey : PrimitiveValue)
    (it : InternalDocIterator) :
    (AppendToPrefix c subkey it).subdoc_exists_ = it.subdoc_exists_ ∧
    (AppendToPrefix c subkey it).subdoc_ts_ = it.subdoc_ts_ ∧
    (AppendToPrefix c subkey it).doc_write_batch_cache_ = it.doc_write_batch_cache_ :=
  ⟨rfl, rfl, rfl⟩

/-- The stores of the scenario are in strictly increasing key order, so that
`RocksDB.Seek` returns the least key at or after its target. -/
theorem ScenarioStore_sorted :
    List.Pairwise (fun a b : Bytes × Bytes => BytesLE a.1 b.1 = true ∧ a.1 ≠ b.1)
      ScenarioStore1 ∧
    List.Pairwise (fun a b : Bytes × Bytes => BytesLE a.1 b.1 = true ∧ a.1 ≠ b.1)
      ScenarioStore2 := by
  decide

/-- The model encoding is coherent: the timestamp decoded from the last
`kBytesPerTimestamp` bytes of a key that ends with an appended timestamp is
that timestamp, and such a key has the length `SeekToKeyPrefix` expects. -/
theorem ModelCodec_timestamp_round_trip (t : Nat) (key_bytes : Bytes) (ht : t < 2 ^ 64) :
    (AppendTimestamp ModelCodec { v := t } key_bytes).length =
      key_bytes.length + 1 + ModelCodec.kBytesPerTimestamp ∧
    ModelCodec.DecodeTimestampFromKey (AppendTimestamp ModelCodec { v := t } key_bytes)
      ((AppendTimestamp ModelCodec { v := t } key_bytes).length -
        ModelCodec.kBytesPerTimestamp) = { v := t } := by
  have hl : (BigEndianBytes 8 (2 ^ 64 - 1 - t)).length = 8 := length_BigEndianBytes 8 _
  have hlen : (AppendTimestamp ModelCodec { v := t } key_bytes).length =
      key_bytes.length + 1 + 8 := by
    simp only [AppendTimestamp, ModelCodec, List.length_append, List.length_cons, hl]
  refine ⟨hlen, ?_⟩
  have hdrop : (AppendTimestamp ModelCodec { v := t } key_bytes).drop (key_bytes.length + 1) =
      BigEndianBytes 8 (2 ^ 64 - 1 - t) := by
    have h1 : AppendTimestamp ModelCodec { v := t } key_bytes =
        (key_bytes ++ [35]) ++ BigEndianBytes 8 (2 ^ 64 - 1 - t) := by
      simp [AppendTimestamp, ModelCodec]
    rw [h1]
    exact List.drop_left' (by simp)
  have htake : (BigEndianBytes 8 (2 ^ 64 - 1 - t)).take 8 = BigEndianBytes 8 (2 ^ 64 - 1 - t) :=
    List.take_of_length_le (by omega)
  show ({ v := 2 ^ 64 - 1 - DecodeBigEndian (((AppendTimestamp ModelCodec { v := t }
      key_bytes).drop ((AppendTimestamp ModelCodec { v := t } key_bytes).length - 8)).take 8) } :
      Timestamp) = { v := t }
  rw [hlen, show key_bytes.length + 1 + 8 - 8 = key_bytes.length + 1 by omega, hdrop, htake,
    DecodeBigEndian_BigEndianBytes]
  have hmod : (2 ^ 64 - 1 - t) % 256 ^ 8 = 2 ^ 64 - 1 - t := Nat.mod_eq_of_lt (by omega)
  rw [hmod]
  congr 1
  omega

/-! ### The properties C1 to C10 -/

/-- A prefix that was just put in the cache is found there. -/
theorem DocWriteBatchCache.Get_Put (cache : DocWriteBatchCache) (key_bytes : Bytes)
    (ts : Timestamp) (type : ValueType) :
    (cache.Put key_bytes ts type).Get key_bytes = some (ts, type) := by
  simp [DocWriteBatchCache.Get, DocWriteBatchCache.Put, List.lookup]

/-- C1 (cache hit).  When the write-batch cache maps the current key prefix to
`(ts, type)`, `SeekToKeyPrefix` returns OK, adopts `ts` and `type`, sets
existence to `kFalse` for a tombstone and to `kTrue` otherwise, and leaves the
store iterator, the seek counter, the cache, the store and the key prefix as
they were, whatever the previous existence state and timestamp. -/
theorem SeekToKeyPrefix_cache_hit (c : KeyValueCodec) (it : InternalDocIterator)
    (ts : Timestamp) (type : ValueType)
    (hit : it.doc_write_batch_cache_.Get it.key_prefix_ = some (ts, type)) :
    (SeekToKeyPrefix c it).1 = Status.OK ∧
    (SeekToKeyPrefix c it).2.subdoc_ts_ = ts ∧
    (SeekToKeyPrefix c it).2.subdoc_type_ = type ∧
    (SeekToKeyPrefix c it).2.subdoc_exists_ =
      (if type = ValueType.kTombstone then Trilean.kFalse else Trilean.kTrue) ∧
    (SeekToKeyPrefix c it).2.iter_ = it.iter_ ∧
    (SeekToKeyPrefix c it).2.num_rocksdb_seeks_ = it.num_rocksdb_seeks_ ∧
    (SeekToKeyPrefix c it).2.doc_write_batch_cache_ = it.doc_write_batch_cache_ ∧
    (SeekToKeyPrefix c it).2.rocksdb = it.rocksdb ∧
    (SeekToKeyPrefix c it).2.key_prefix_ = it.key_prefix_ := by
  rw [SeekToKeyPrefix_eq_of_hit c it (ts, type) hit]
  exact ⟨rfl, rfl, rfl, rfl, rfl, rfl, rfl, rfl, rfl⟩

/-- C1 at a concrete state: the cache holds the document key of `"a"` with
timestamp 3 and an object type, the previous resolution was `kTrue` at
timestamp 9, and the seek resolves `kTrue` at timestamp 3 without a store
seek. -/
theorem SeekToKeyPrefix_cache_hit_witness :
    (ExampleState ScenarioStore2 [(ScenarioDocKey, ({ v := 3 }, ValueType.kObject))]
        ScenarioDocKey Trilean.kTrue { v := 9 }).doc_write_batch_cache_.Get ScenarioDocKey =
      some ({ v := 3 }, ValueType.kObject) ∧
    (SeekToKeyPrefix ModelCodec
      (ExampleState ScenarioStore2 [(ScenarioDocKey, ({ v := 3 }, ValueType.kObject))]
        ScenarioDocKey Trilean.kTrue { v := 9 })).2.subdoc_exists_ = Trilean.kTrue ∧
    (SeekToKeyPrefix ModelCodec
      (ExampleState ScenarioStore2 [(ScenarioDocKey, ({ v := 3 }, ValueType.kObject))]
        ScenarioDocKey Trilean.kTrue { v := 9 })).2.num_rocksdb_seeks_ = some 0 :=
  have h := SeekToKeyPrefix_cache_hit ModelCodec
    (ExampleState ScenarioStore2 [(ScenarioDocKey, ({ v := 3 }, ValueType.kObject))]
      ScenarioDocKey Trilean.kTrue { v := 9 }) { v := 3 } ValueType.kObject (by decide)
  ⟨by decide, h.2.2.2.1, h.2.2.2.2.2.1⟩

/-- C2 (corruption).  `SeekToKeyPrefix` returns Corruption exactly when the
cache misses, the first store key at or after the prefix starts with the
prefix and its length is not the prefix length plus one plus
`kBytesPerTimestamp`; in every other case it returns OK with existence `kTrue`
or `kFalse`, never `kUnknown`. -/
theorem SeekToKeyPrefix_corruption_iff (c : KeyValueCodec) (it : InternalDocIterator) :
    ((SeekToKeyPrefix c it).1 = Status.Corruption ↔
      (it.doc_write_batch_cache_.Get it.key_prefix_ = none ∧
        ∃ key value, it.rocksdb.Seek it.key_prefix_ = some (key, value) ∧
          IsPrefixOf it.key_prefix_ key = true ∧
          key.length ≠ it.key_prefix_.length + 1 + c.kBytesPerTimestamp)) ∧
    ((SeekToKeyPrefix c it).1 = Status.Corruption ∨
      ((SeekToKeyPrefix c it).1 = Status.OK ∧
        ((SeekToKeyPrefix c it).2.subdoc_exists_ = Trilean.kTrue ∨
          (SeekToKeyPrefix c it).2.subdoc_exists_ = Trilean.kFalse) ∧
        (SeekToKeyPrefix c it).2.subdoc_exists_ ≠ Trilean.kUnknown)) := by
  cases hget : it.doc_write_batch_cache_.Get it.key_prefix_ with
  | some cached =>
    rw [SeekToKeyPrefix_eq_of_hit c it cached hget]
    by_cases hty : cached.2 = ValueType.kTombstone <;> simp [hty]
  | none =>
    cases hseek : it.rocksdb.Seek it.key_prefix_ with
    | none =>
      rw [SeekToKeyPrefix_eq_of_no_key c it hget hseek]
      simp
    | some kv =>
      obtain ⟨key, value⟩ := kv
      cases hpre : IsPrefixOf it.key_prefix_ key with
      | false =>
        rw [SeekToKeyPrefix_eq_of_other_key c it key value hget hseek hpre]
        simp [hpre]
      | true =>
        by_cases hlen : key.length = it.key_prefix_.length + 1 + c.kBytesPerTimestamp
        · by_cases hsup : it.subdoc_exists_ ≠ Trilean.kUnknown ∧ it.subdoc_ts_.v >
              (c.DecodeTimestampFromKey key (key.length - c.kBytesPerTimestamp)).v
          · rw [SeekToKeyPrefix_eq_of_superseded c it key value hget hseek hpre hlen
              hsup.1 hsup.2]
            simp [hpre, hlen]
          · have hnot : it.subdoc_exists_ = Trilean.kUnknown ∨ it.subdoc_ts_.v ≤
                (c.DecodeTimestampFromKey key (key.length - c.kBytesPerTimestamp)).v := by
              by_cases hu : it.subdoc_exists_ = Trilean.kUnknown
              · exact Or.inl hu
              · exact Or.inr (Nat.le_of_not_lt (fun hlt => hsup ⟨hu, hlt⟩))
            rw [SeekToKeyPrefix_eq_of_fresh c it key value hget hseek hpre hlen hnot]
            by_cases hty : c.DecodeValueType value = ValueType.kTombstone <;>
              simp [hpre, hlen, hty]
        · rw [SeekToKeyPrefix_eq_of_bad_length c it key value hget hseek hpre hlen]
          simp [hpre, hlen]

/-- C3 (supersession).  On a cache miss, when the previous existence state is
not `kUnknown` and the previous timestamp is strictly greater than the
timestamp decoded from the well-formed key found under the prefix,
`SeekToKeyPrefix` returns OK with existence `kFalse` whatever the value found
decodes to, and the cache is left as it was, without an entry for the
prefix. -/
theorem SeekToKeyPrefix_supersession (c : KeyValueCodec) (it : InternalDocIterator)
    (key value : Bytes)
    (hget : it.doc_write_batch_cache_.Get it.key_prefix_ = none)
    (hseek : it.rocksdb.Seek it.key_prefix_ = some (key, value))
    (hpre : IsPrefixOf it.key_prefix_ key = true)
    (hlen : key.length = it.key_prefix_.length + 1 + c.kBytesPerTimestamp)
    (hprev : it.subdoc_exists_ ≠ Trilean.kUnknown)
    (hts : it.subdoc_ts_.v >
      (c.DecodeTimestampFromKey key (key.length - c.kBytesPerTimestamp)).v) :
    (SeekToKeyPrefix c it).1 = Status.OK ∧
    (SeekToKeyPrefix c it).2.subdoc_exists_ = Trilean.kFalse ∧
    (SeekToKeyPrefix c it).2.subdoc_type_ = c.DecodeValueType value ∧
    (SeekToKeyPrefix c it).2.doc_write_batch_cache_ = it.doc_write_batch_cache_ ∧
    (SeekToKeyPrefix c it).2.doc_write_batch_cache_.Get it.key_prefix_ = none := by
  rw [SeekToKeyPrefix_eq_of_superseded c it key value hget hseek hpre hlen hprev hts]
  exact ⟨rfl, rfl, rfl, rfl, hget⟩

/-- C3 at a concrete state: the level above resolved `kTrue` at timestamp 3,
the store holds the string `"hello"` for `"a.y"` at timestamp 2, and the seek
resolves `kFalse` with a scalar type and an empty cache. -/
theorem SeekToKeyPrefix_supersession_witness :
    (ExampleState ScenarioStore2 [] ScenarioChildKeyPrefix Trilean.kTrue { v := 3 }).subdoc_ts_.v >
      (ModelCodec.DecodeTimestampFromKey (ScenarioChildKey 2)
        ((ScenarioChildKey 2).length - ModelCodec.kBytesPerTimestamp)).v ∧
    (SeekToKeyPrefix ModelCodec
      (ExampleState ScenarioStore2 [] ScenarioChildKeyPrefix Trilean.kTrue
        { v := 3 })).2.subdoc_exists_ = Trilean.kFalse ∧
    (SeekToKeyPrefix ModelCodec
      (ExampleState ScenarioStore2 [] ScenarioChildKeyPrefix Trilean.kTrue
        { v := 3 })).2.subdoc_type_ = ValueType.kScalar ScalarKind.kString ∧
    (SeekToKeyPrefix ModelCodec
      (ExampleState ScenarioStore2 [] ScenarioChildKeyPrefix Trilean.kTrue
        { v := 3 })).2.doc_write_batch_cache_ = [] :=
  have h := SeekToKeyPrefix_supersession ModelCodec
    (ExampleState ScenarioStore2 [] ScenarioChildKeyPrefix Trilean.kTrue { v := 3 })
    (ScenarioChildKey 2) [36, 104, 101, 108, 108, 111]
    (by decide) (by decide) (by decide) (by decide) (by decide) (by decide)
  ⟨by decide, h.2.1, h.2.2.1, h.2.2.2.1⟩

/-- C4 (fresh resolution).  On a cache miss, when the key found starts with
the prefix, has the expected length and is not superseded (previous state
`kUnknown`, or previous timestamp at most the timestamp found),
`SeekToKeyPrefix` returns OK, puts the prefix with the timestamp found and the
decoded type in the cache, and sets existence to `kFalse` for a tombstone and
to `kTrue` otherwise. -/
theorem SeekToKeyPrefix_fresh (c : KeyValueCodec) (it : InternalDocIterator)
    (key value : Bytes)
    (hget : it.doc_write_batch_cache_.Get it.key_prefix_ = none)
    (hseek : it.rocksdb.Seek it.key_prefix_ = some (key, value))
    (hpre : IsPrefixOf it.key_prefix_ key = true)
    (hlen : key.length = it.key_prefix_.length + 1 + c.kBytesPerTimestamp)
    (hnot : it.subdoc_exists_ = Trilean.kUnknown ∨
      it.subdoc_ts_.v ≤
        (c.DecodeTimestampFromKey key (key.length - c.kBytesPerTimestamp)).v) :
    (SeekToKeyPrefix c it).1 = Status.OK ∧
    (SeekToKeyPrefix c it).2.doc_write_batch_cache_ =
      it.doc_write_batch_cache_.Put it.key_prefix_
        (c.DecodeTimestampFromKey key (key.length - c.kBytesPerTimestamp))
        (c.DecodeValueType value) ∧
    (SeekToKeyPrefix c it).2.doc_write_batch_cache_.Get it.key_prefix_ =
      some (c.DecodeTimestampFromKey key (key.length - c.kBytesPerTimestamp),
        c.DecodeValueType value) ∧
    (SeekToKeyPrefix c it).2.subdoc_ts_ =
      c.DecodeTimestampFromKey key (key.length - c.kBytesPerTimestamp) ∧
    (SeekToKeyPrefix c it).2.subdoc_type_ = c.DecodeValueType value ∧
    (SeekToKeyPrefix c it).2.subdoc_exists_ =
      (if c.DecodeValueType value = ValueType.kTombstone then Trilean.kFalse
       else Trilean.kTrue) := by
  rw [SeekToKeyPrefix_eq_of_fresh c it key value hget hseek hpre hlen hnot]
  exact ⟨rfl, rfl, DocWriteBatchCache.Get_Put _ _ _ _, rfl, rfl, rfl⟩

/-- C4 at a concrete state: a store whose first entry under the document key
of `"a"` is a tombstone at timestamp 5 resolves the key to `kFalse` and caches
the tombstone. -/
theorem SeekToKeyPrefix_fresh_witness :
    (RocksDB.Put ScenarioStore1 (ScenarioRootKey 5) [88]).Seek ScenarioDocKey =
      some (ScenarioRootKey 5, [88]) ∧
    (SeekToKeyPrefix ModelCodec
      (ExampleState (RocksDB.Put ScenarioStore1 (ScenarioRootKey 5) [88]) [] ScenarioDocKey
        Trilean.kUnknown { v := 0 })).2.subdoc_exists_ = Trilean.kFalse ∧
    (SeekToKeyPrefix ModelCodec
      (ExampleState (RocksDB.Put ScenarioStore1 (ScenarioRootKey 5) [88]) [] ScenarioDocKey
        Trilean.kUnknown { v := 0 })).2.doc_write_batch_cache_ =
      [(ScenarioDocKey, ({ v := 5 }, ValueType.kTombstone))] :=
  have h := SeekToKeyPrefix_fresh ModelCodec
    (ExampleState (RocksDB.Put ScenarioStore1 (ScenarioRootKey 5) [88]) [] ScenarioDocKey
      Trilean.kUnknown { v := 0 })
    (ScenarioRootKey 5) [88]
    (by decide) (by decide) (by decide) (by decide) (by decide)
  ⟨by decide, h.2.2.2.2.2, h.2.1⟩

/-- C5 (absent prefix).  On a cache miss, when the store has no key at or
after the prefix, or the first such key does not start with the prefix,
`SeekToKeyPrefix` returns OK with existence `kFalse`, whatever the previous
state of the iterator. -/
theorem SeekToKeyPrefix_absent (c : KeyValueCodec) (it : InternalDocIterator)
    (hget : it.doc_write_batch_cache_.Get it.key_prefix_ = none)
    (hseek : it.rocksdb.Seek it.key_prefix_ = none ∨
      ∃ key value, it.rocksdb.Seek it.key_prefix_ = some (key, value) ∧
        IsPrefixOf it.key_prefix_ key = false) :
    (SeekToKeyPrefix c it).1 = Status.OK ∧
    (SeekToKeyPrefix c it).2.subdoc_exists_ = Trilean.kFalse := by
  rcases hseek with hnone | ⟨key, value, hsome, hpre⟩
  · rw [SeekToKeyPrefix_eq_of_no_key c it hget hnone]
    exact ⟨rfl, rfl⟩
  · rw [SeekToKeyPrefix_eq_of_other_key c it key value hget hsome hpre]
    exact ⟨rfl, rfl⟩

/-- C5 at a concrete state: the store holds `"a"` and `"a.y"`, the prefix is
that of `"a.x"`, the first key at or after it is the one of `"a.y"`, and the
seek resolves `kFalse`. -/
theorem SeekToKeyPrefix_absent_witness :
    (ScenarioStore1.Seek (AppendToKey ModelCodec (PrimitiveValue.String [120]) ScenarioDocKey) =
        some (ScenarioChildKey 2, [36, 104, 101, 108, 108, 111]) ∧
      IsPrefixOf (AppendToKey ModelCodec (PrimitiveValue.String [120]) ScenarioDocKey)
        (ScenarioChildKey 2) = false) ∧
    (SeekToKeyPrefix ModelCodec
      (ExampleState ScenarioStore1 []
        (AppendToKey ModelCodec (PrimitiveValue.String [120]) ScenarioDocKey)
        Trilean.kTrue { v := 1 })).1 = Status.OK ∧
    (SeekToKeyPrefix ModelCodec
      (ExampleState ScenarioStore1 []
        (AppendToKey ModelCodec (PrimitiveValue.String [120]) ScenarioDocKey)
        Trilean.kTrue { v := 1 })).2.subdoc_exists_ = Trilean.kFalse :=
  ⟨by decide,
    SeekToKeyPrefix_absent ModelCodec
      (ExampleState ScenarioStore1 []
        (AppendToKey ModelCodec (PrimitiveValue.String [120]) ScenarioDocKey)
        Trilean.kTrue { v := 1 })
      (by decide)
      (Or.inr ⟨ScenarioChildKey 2, [36, 104, 101, 108, 108, 111], by decide, by decide⟩)⟩

/-- C7 as stated fails: over an empty store with an empty cache the first
`SeekToKeyPrefix` returns OK (nothing is found, nothing is cached) and the
second call for the same prefix seeks the store again, taking the counter from
1 to 2. -/
theorem Repeat_lookup_seeks_again :
    (SeekToKeyPrefix ModelCodec
      (ExampleState [] [] ScenarioDocKey Trilean.kUnknown { v := 0 })).1 = Status.OK ∧
    (SeekToKeyPrefix ModelCodec
      (ExampleState [] [] ScenarioDocKey Trilean.kUnknown { v := 0 })).2.key_prefix_ =
      ScenarioDocKey ∧
    (SeekToKeyPrefix ModelCodec
      (ExampleState [] [] ScenarioDocKey Trilean.kUnknown { v := 0 })).2.num_rocksdb_seeks_ =
      some 1 ∧
    (SeekToKeyPrefix ModelCodec
      (SeekToKeyPrefix ModelCodec
        (ExampleState [] [] ScenarioDocKey Trilean.kUnknown
          { v := 0 })).2).2.num_rocksdb_seeks_ = some 2 := by
  decide

/-- A repeat lookup after a cached resolution.  When the first
`SeekToKeyPrefix` hits the cache, or misses it and finds under the prefix a
key of the expected length that is not superseded, a second call for the same
prefix returns OK and changes nothing: the seek counter, the store iterator
and the whole iterator state are as the first call left them. -/
theorem Repeat_lookup_no_second_seek (c : KeyValueCodec) (it : InternalDocIterator)
    (h : (∃ cached, it.doc_write_batch_cache_.Get it.key_prefix_ = some cached) ∨
      (it.doc_write_batch_cache_.Get it.key_prefix_ = none ∧
        ∃ key value, it.rocksdb.Seek it.key_prefix_ = some (key, value) ∧
          IsPrefixOf it.key_prefix_ key = true ∧
          key.length = it.key_prefix_.length + 1 + c.kBytesPerTimestamp ∧
          (it.subdoc_exists_ = Trilean.kUnknown ∨ it.subdoc_ts_.v ≤
            (c.DecodeTimestampFromKey key (key.length - c.kBytesPerTimestamp)).v))) :
    (SeekToKeyPrefix c it).1 = Status.OK ∧
    (SeekToKeyPrefix c (SeekToKeyPrefix c it).2).1 = Status.OK ∧
    (SeekToKeyPrefix c (SeekToKeyPrefix c it).2).2.num_rocksdb_seeks_ =
      (SeekToKeyPrefix c it).2.num_rocksdb_seeks_ ∧
    (SeekToKeyPrefix c (SeekToKeyPrefix c it).2).2.iter_ = (SeekToKeyPrefix c it).2.iter_ ∧
    (SeekToKeyPrefix c (SeekToKeyPrefix c it).2).2 = (SeekToKeyPrefix c it).2 := by
  rcases h with ⟨cached, hget⟩ | ⟨hget, key, value, hseek, hpre, hlen, hnot⟩
  · have h1 := SeekToKeyPrefix_eq_of_hit c it cached hget
    have h2 := SeekToKeyPrefix_eq_of_hit c (SeekToKeyPrefix c it).2 cached
      (by rw [h1]; exact hget)
    rw [h2, h1]
    exact ⟨rfl, rfl, rfl, rfl, rfl⟩
  · have h1 := SeekToKeyPrefix_eq_of_fresh c it key value hget hseek hpre hlen hnot
    have h2 := SeekToKeyPrefix_eq_of_hit c (SeekToKeyPrefix c it).2
      (c.DecodeTimestampFromKey key (key.length - c.kBytesPerTimestamp), c.DecodeValueType value)
      (by rw [h1]; exact DocWriteBatchCache.Get_Put _ _ _ _)
    rw [h2, h1]
    exact ⟨rfl, rfl, rfl, rfl, rfl⟩

/-- A repeat lookup after a cached resolution, at a concrete state: the first
seek for `"a.y"` over the store of the scenario finds and caches the entry
(counter 1), and the second seek leaves the counter at 1. -/
theorem Repeat_lookup_no_second_seek_witness :
    (ScenarioStore1.Seek ScenarioChildKeyPrefix =
      some (ScenarioChildKey 2, [36, 104, 101, 108, 108, 111])) ∧
    (SeekToKeyPrefix ModelCodec
      (ExampleState ScenarioStore1 [] ScenarioChildKeyPrefix Trilean.kTrue
        { v := 1 })).2.num_rocksdb_seeks_ = some 1 ∧
    (SeekToKeyPrefix ModelCodec
      (SeekToKeyPrefix ModelCodec
        (ExampleState ScenarioStore1 [] ScenarioChildKeyPrefix Trilean.kTrue
          { v := 1 })).2).2.num_rocksdb_seeks_ =
      (SeekToKeyPrefix ModelCodec
        (ExampleState ScenarioStore1 [] ScenarioChildKeyPrefix Trilean.kTrue
          { v := 1 })).2.num_rocksdb_seeks_ :=
  ⟨by decide, by decide,
    (Repeat_lookup_no_second_seek ModelCodec
      (ExampleState ScenarioStore1 [] ScenarioChildKeyPrefix Trilean.kTrue { v := 1 })
      (Or.inr ⟨by decide, ScenarioChildKey 2, [36, 104, 101, 108, 108, 111],
        by decide, by decide, by decide, Or.inr (by decide)⟩)).2.2.1⟩

/-- A repeat lookup after a not-found resolution.  When the first
`SeekToKeyPrefix` misses the cache and finds no key at or after the prefix, or
a key without the prefix, it returns OK with existence `kFalse` and leaves the
cache as it was; the second call for the same prefix misses the cache too,
seeks the store again and resolves `kFalse` again. -/
theorem Repeat_lookup_after_not_found (c : KeyValueCodec) (it : InternalDocIterator)
    (hget : it.doc_write_batch_cache_.Get it.key_prefix_ = none)
    (hseek : it.rocksdb.Seek it.key_prefix_ = none ∨
      ∃ key value, it.rocksdb.Seek it.key_prefix_ = some (key, value) ∧
        IsPrefixOf it.key_prefix_ key = false) :
    (SeekToKeyPrefix c it).1 = Status.OK ∧
    (SeekToKeyPrefix c it).2.subdoc_exists_ = Trilean.kFalse ∧
    (SeekToKeyPrefix c it).2.doc_write_batch_cache_ = it.doc_write_batch_cache_ ∧
    (SeekToKeyPrefix c it).2.doc_write_batch_cache_.Get it.key_prefix_ = none ∧
    (SeekToKeyPrefix c (SeekToKeyPrefix c it).2).1 = Status.OK ∧
    (SeekToKeyPrefix c (SeekToKeyPrefix c it).2).2.subdoc_exists_ = Trilean.kFalse ∧
    (SeekToKeyPrefix c (SeekToKeyPrefix c it).2).2.iter_ = it.rocksdb.Seek it.key_prefix_ ∧
    (SeekToKeyPrefix c (SeekToKeyPrefix c it).2).2.num_rocksdb_seeks_ =
      (SeekToKeyPrefix c it).2.num_rocksdb_seeks_.map (fun n => n + 1) := by
  rcases hseek with hnone | ⟨key, value, hsome, hpre⟩
  · have h1 := SeekToKeyPrefix_eq_of_no_key c it hget hnone
    have h2 := SeekToKeyPrefix_eq_of_no_key c (SeekToKeyPrefix c it).2
      (by rw [h1]; exact hget) (by rw [h1]; exact hnone)
    rw [h2, h1]
    exact ⟨rfl, rfl, rfl, hget, rfl, rfl, hnone.symm, rfl⟩
  · have h1 := SeekToKeyPrefix_eq_of_other_key c it key value hget hsome hpre
    have h2 := SeekToKeyPrefix_eq_of_other_key c (SeekToKeyPrefix c it).2 key value
      (by rw [h1]; exact hget) (by rw [h1]; exact hsome) (by rw [h1]; exact hpre)
    rw [h2, h1]
    exact ⟨rfl, rfl, rfl, hget, rfl, rfl, hsome.symm, rfl⟩

/-- A repeat lookup after a superseded resolution.  When the first
`SeekToKeyPrefix` misses the cache and discards the well-formed entry found by
supersession, it returns OK with existence `kFalse` and leaves the cache as it
was; the second call for the same prefix misses the cache too and seeks the
store again.  It then compares the entry with its own timestamp, recorded by
the first call, so it resolves the entry afresh and puts it in the cache. -/
theorem Repeat_lookup_after_supersession (c : KeyValueCodec) (it : InternalDocIterator)
    (key value : Bytes)
    (hget : it.doc_write_batch_cache_.Get it.key_prefix_ = none)
    (hseek : it.rocksdb.Seek it.key_prefix_ = some (key, value))
    (hpre : IsPrefixOf it.key_prefix_ key = true)
    (hlen : key.length = it.key_prefix_.length + 1 + c.kBytesPerTimestamp)
    (hprev : it.subdoc_exists_ ≠ Trilean.kUnknown)
    (hts : it.subdoc_ts_.v >
      (c.DecodeTimestampFromKey key (key.length - c.kBytesPerTimestamp)).v) :
    ((SeekToKeyPrefix c it).1 = Status.OK ∧
      (SeekToKeyPrefix c it).2.subdoc_exists_ = Trilean.kFalse ∧
      (SeekToKeyPrefix c it).2.doc_write_batch_cache_ = it.doc_write_batch_cache_ ∧
      (SeekToKeyPrefix c it).2.doc_write_batch_cache_.Get it.key_prefix_ = none ∧
      (SeekToKeyPrefix c (SeekToKeyPrefix c it).2).1 = Status.OK ∧
      (SeekToKeyPrefix c (SeekToKeyPrefix c it).2).2.iter_ = it.rocksdb.Seek it.key_prefix_ ∧
      (SeekToKeyPrefix c (SeekToKeyPrefix c it).2).2.num_rocksdb_seeks_ =
        (SeekToKeyPrefix c it).2.num_rocksdb_seeks_.map (fun n => n + 1)) ∧
    ((SeekToKeyPrefix c (SeekToKeyPrefix c it).2).2.subdoc_exists_ =
        (if c.DecodeValueType value = ValueType.kTombstone then Trilean.kFalse
         else Trilean.kTrue) ∧
      (SeekToKeyPrefix c (SeekToKeyPrefix c it).2).2.doc_write_batch_cache_.Get
          it.key_prefix_ =
        some (c.DecodeTimestampFromKey key (key.length - c.kBytesPerTimestamp),
          c.DecodeValueType value)) := by
  have h1 := SeekToKeyPrefix_eq_of_superseded c it key value hget hseek hpre hlen hprev hts
  have h2 := SeekToKeyPrefix_eq_of_fresh c (SeekToKeyPrefix c it).2 key value
    (by rw [h1]; exact hget) (by rw [h1]; exact hseek) (by rw [h1]; exact hpre)
    (by rw [h1]; exact hlen) (Or.inr (by rw [h1]))
  rw [h2, h1]
  exact ⟨⟨rfl, rfl, rfl, hget, rfl, hseek.symm, rfl⟩, rfl, DocWriteBatchCache.Get_Put _ _ _ _⟩

/-- C7, amended.  For every codec and iterator state, by what the first
`SeekToKeyPrefix` does.  (a) It hits the cache, or misses it and finds under
the prefix a key of the expected length that is not superseded: the second
call for the same prefix returns OK and does not seek the store; the seek
counter, the store iterator and the rest of the state are as the first call
left them.  (b) It misses the cache and finds no key at or after the prefix,
or a key without the prefix: it returns OK with existence `kFalse` and caches
nothing, and the second call seeks the store again, a seek counter that is
present growing by one more.  (c) It misses the cache and discards the
well-formed entry found by supersession: it returns OK with existence `kFalse`
and caches nothing, and the second call seeks the store again, a seek counter
that is present growing by one more. -/
theorem Repeat_lookup_by_first_call (c : KeyValueCodec) (it : InternalDocIterator) :
    (((∃ cached, it.doc_write_batch_cache_.Get it.key_prefix_ = some cached) ∨
        (it.doc_write_batch_cache_.Get it.key_prefix_ = none ∧
          ∃ key value, it.rocksdb.Seek it.key_prefix_ = some (key, value) ∧
            IsPrefixOf it.key_prefix_ key = true ∧
            key.length = it.key_prefix_.length + 1 + c.kBytesPerTimestamp ∧
            (it.subdoc_exists_ = Trilean.kUnknown ∨ it.subdoc_ts_.v ≤
              (c.DecodeTimestampFromKey key (key.length - c.kBytesPerTimestamp)).v))) →
      (SeekToKeyPrefix c it).1 = Status.OK ∧
      (SeekToKeyPrefix c (SeekToKeyPrefix c it).2).1 = Status.OK ∧
      (SeekToKeyPrefix c (SeekToKeyPrefix c it).2).2.num_rocksdb_seeks_ =
        (SeekToKeyPrefix c it).2.num_rocksdb_seeks_ ∧
      (SeekToKeyPrefix c (SeekToKeyPrefix c it).2).2.iter_ = (SeekToKeyPrefix c it).2.iter_ ∧
      (SeekToKeyPrefix c (SeekToKeyPrefix c it).2).2 = (SeekToKeyPrefix c it).2) ∧
    ((it.doc_write_batch_cache_.Get it.key_prefix_ = none ∧
        (it.rocksdb.Seek it.key_prefix_ = none ∨
          ∃ key value, it.rocksdb.Seek it.key_prefix_ = some (key, value) ∧
            IsPrefixOf it.key_prefix_ key = false)) →
      (SeekToKeyPrefix c it).1 = Status.OK ∧
      (SeekToKeyPrefix c it).2.subdoc_exists_ = Trilean.kFalse ∧
      (SeekToKeyPrefix c it).2.doc_write_batch_cache_ = it.doc_write_batch_cache_ ∧
      (SeekToKeyPrefix c it).2.doc_write_batch_cache_.Get it.key_prefix_ = none ∧
      (SeekToKeyPrefix c (SeekToKeyPrefix c it).2).1 = Status.OK ∧
      (SeekToKeyPrefix c (SeekToKeyPrefix c it).2).2.iter_ = it.rocksdb.Seek it.key_prefix_ ∧
      (SeekToKeyPrefix c (SeekToKeyPrefix c it).2).2.num_rocksdb_seeks_ =
        (SeekToKeyPrefix c it).2.num_rocksdb_seeks_.map (fun n => n + 1) ∧
      (∀ n : Int, (SeekToKeyPrefix c it).2.num_rocksdb_seeks_ = some n →
        (SeekToKeyPrefix c (SeekToKeyPrefix c it).2).2.num_rocksdb_seeks_ = some (n + 1))) ∧
    ((it.doc_write_batch_cache_.Get it.key_prefix_ = none ∧
        ∃ key value, it.rocksdb.Seek it.key_prefix_ = some (key, value) ∧
          IsPrefixOf it.key_prefix_ key = true ∧
          key.length = it.key_prefix_.length + 1 + c.kBytesPerTimestamp ∧
          it.subdoc_exists_ ≠ Trilean.kUnknown ∧ it.subdoc_ts_.v >
            (c.DecodeTimestampFromKey key (key.length - c.kBytesPerTimestamp)).v) →
      (SeekToKeyPrefix c it).1 = Status.OK ∧
      (SeekToKeyPrefix c it).2.subdoc_exists_ = Trilean.kFalse ∧
      (SeekToKeyPrefix c it).2.doc_write_batch_cache_ = it.doc_write_batch_cache_ ∧
      (SeekToKeyPrefix c it).2.doc_write_batch_cache_.Get it.key_prefix_ = none ∧
      (SeekToKeyPrefix c (SeekToKeyPrefix c it).2).1 = Status.OK ∧
      (SeekToKeyPrefix c (SeekToKeyPrefix c it).2).2.iter_ = it.rocksdb.Seek it.key_prefix_ ∧
      (SeekToKeyPrefix c (SeekToKeyPrefix c it).2).2.num_rocksdb_seeks_ =
        (SeekToKeyPrefix c it).2.num_rocksdb_seeks_.map (fun n => n + 1) ∧
      (∀ n : Int, (SeekToKeyPrefix c it).2.num_rocksdb_seeks_ = some n →
        (SeekToKeyPrefix c (SeekToKeyPrefix c it).2).2.num_rocksdb_seeks_ = some (n + 1))) := by
  refine ⟨fun h => Repeat_lookup_no_second_seek c it h, ?_, ?_⟩
  · rintro ⟨hget, hseek⟩
    have h := Repeat_lookup_after_not_found c it hget hseek
    refine ⟨h.1, h.2.1, h.2.2.1, h.2.2.2.1, h.2.2.2.2.1, h.2.2.2.2.2.2.1, h.2.2.2.2.2.2.2, ?_⟩
    intro n hn
    rw [h.2.2.2.2.2.2.2, hn]
    rfl
  · rintro ⟨hget, key, value, hseek, hpre, hlen, hprev, hts⟩
    have h := (Repeat_lookup_after_supersession c it key value hget hseek hpre hlen hprev hts).1
    refine ⟨h.1, h.2.1, h.2.2.1, h.2.2.2.1, h.2.2.2.2.1, h.2.2.2.2.2.1, h.2.2.2.2.2.2, ?_⟩
    intro n hn
    rw [h.2.2.2.2.2.2, hn]
    rfl

/-- C7, amended, at three concrete states over the stores of the scenario, the
cache empty and the counter at 0 before the first call.  (a) `"a.y"` after
`"a"` at T=1: the entry is found and cached, the counter is 1 after the first
call and 1 after the second.  (b) `"a.x"`, which is not in the store: the
counter is 1 after the first call and 2 after the second.  (c) `"a.y"` after
`"a"` at T=3: the entry at T=2 is discarded and not cached, the counter is 1
after the first call and 2 after the second. -/
theorem Repeat_lookup_by_first_call_witness :
    ((SeekToKeyPrefix ModelCodec
        (ExampleState ScenarioStore1 [] ScenarioChildKeyPrefix Trilean.kTrue
          { v := 1 })).2.num_rocksdb_seeks_ = some 1 ∧
      (SeekToKeyPrefix ModelCodec (SeekToKeyPrefix ModelCodec
        (ExampleState ScenarioStore1 [] ScenarioChildKeyPrefix Trilean.kTrue
          { v := 1 })).2).2.num_rocksdb_seeks_ = some 1) ∧
    ((SeekToKeyPrefix ModelCodec
        (ExampleState ScenarioStore1 []
          (AppendToKey ModelCodec (PrimitiveValue.String [120]) ScenarioDocKey)
          Trilean.kTrue { v := 1 })).2.num_rocksdb_seeks_ = some 1 ∧
      (SeekToKeyPrefix ModelCodec (SeekToKeyPrefix ModelCodec
        (ExampleState ScenarioStore1 []
          (AppendToKey ModelCodec (PrimitiveValue.String [120]) ScenarioDocKey)
          Trilean.kTrue { v := 1 })).2).2.num_rocksdb_seeks_ = some 2) ∧
    ((SeekToKeyPrefix ModelCodec
        (ExampleState ScenarioStore2 [] ScenarioChildKeyPrefix Trilean.kTrue
          { v := 3 })).2.subdoc_exists_ = Trilean.kFalse ∧
      (SeekToKeyPrefix ModelCodec
        (ExampleState ScenarioStore2 [] ScenarioChildKeyPrefix Trilean.kTrue
          { v := 3 })).2.doc_write_batch_cache_ = [] ∧
      (SeekToKeyPrefix ModelCodec
        (ExampleState ScenarioStore2 [] ScenarioChildKeyPrefix Trilean.kTrue
          { v := 3 })).2.num_rocksdb_seeks_ = some 1 ∧
      (SeekToKeyPrefix ModelCodec (SeekToKeyPrefix ModelCodec
        (ExampleState ScenarioStore2 [] ScenarioChildKeyPrefix Trilean.kTrue
          { v := 3 })).2).2.num_rocksdb_seeks_ = some 2) :=
  have ha := (Repeat_lookup_by_first_call ModelCodec
    (ExampleState ScenarioStore1 [] ScenarioChildKeyPrefix Trilean.kTrue { v := 1 })).1
    (Or.inr ⟨by decide, ScenarioChildKey 2, [36, 104, 101, 108, 108, 111],
      by decide, by decide, by decide, Or.inr (by decide)⟩)
  have hb := (Repeat_lookup_by_first_call ModelCodec
    (ExampleState ScenarioStore1 []
      (AppendToKey ModelCodec (PrimitiveValue.String [120]) ScenarioDocKey)
      Trilean.kTrue { v := 1 })).2.1
    ⟨by decide, Or.inr ⟨ScenarioChildKey 2, [36, 104, 101, 108, 108, 111],
      by decide, by decide⟩⟩
  have hc := (Repeat_lookup_by_first_call ModelCodec
    (ExampleState ScenarioStore2 [] ScenarioChildKeyPrefix Trilean.kTrue { v := 3 })).2.2
    ⟨by decide, ScenarioChildKey 2, [36, 104, 101, 108, 108, 111],
      by decide, by decide, by decide, by decide, by decide⟩
  ⟨⟨by decide, ha.2.2.1.trans (by decide)⟩,
    ⟨by decide, hb.2.2.2.2.2.2.2 1 (by decide)⟩,
    ⟨hc.2.1, hc.2.2.1.trans (by decide), by decide, hc.2.2.2.2.2.2.2 1 (by decide)⟩⟩

/-- C8 (seek monotonicity).  For every iterator and every sequence of
`AppendToPrefix` and `AppendTimestampToPrefix` calls, each key prefix is no
longer than the next and is a byte-prefix of it: along the chain that starts
at the initial prefix, the length never decreases and the bytes already
present stay as they are. -/
theorem PrefixesAfter_chain (c : KeyValueCodec) (it : InternalDocIterator)
    (ops : List PrefixAppend) :
    List.Chain (fun p q : Bytes => p.length ≤ q.length ∧ p <+: q ∧ q.take p.length = p)
      it.key_prefix_ (PrefixesAfter c it ops) := by
  induction ops generalizing it with
  | nil => exact List.Chain.nil
  | cons op ops ih =>
    refine List.Chain.cons ?_ (ih (ApplyAppend c it op))
    cases op <;>
      simp [ApplyAppend, AppendToPrefix, AppendTimestampToPrefix, AppendToKey, AppendTimestamp]

/-- C9 (timestamp codec round trip).  For every timestamp `t` below 2^64,
`DecodeFrom` on the bytes appended by `EncodeTo`, followed by any further
input, returns true, yields `t` and leaves exactly the further input (nothing
when there is none); `EncodeTo` appends to `dst`; and `FromUint64(v)` returns
OK, after which `ToUint64` returns `v`. -/
theorem Timestamp_round_trip (t self : Timestamp) (ht : t.v < 2 ^ 64) :
    (∀ rest : Bytes, self.DecodeFrom (t.EncodeTo [] ++ rest) = (true, t, rest)) ∧
    self.DecodeFrom (t.EncodeTo []) = (true, t, []) ∧
    (∀ dst : Bytes, t.EncodeTo dst = dst ++ t.EncodeTo []) ∧
    (∀ v : Nat, (self.FromUint64 v).1 = Status.OK ∧ (self.FromUint64 v).2.ToUint64 = v) := by
  have hrt : ∀ rest : Bytes, self.DecodeFrom (t.EncodeTo [] ++ rest) = (true, t, rest) := by
    intro rest
    simp [Timestamp.DecodeFrom, Timestamp.EncodeTo, GetMemcmpableVarint64_Put t.v rest ht]
  refine ⟨hrt, ?_, ?_, ?_⟩
  · simpa using hrt []
  · intro dst
    exact PutMemcmpableVarint64_append dst t.v
  · intro v
    exact ⟨rfl, rfl⟩

/-- C9 at concrete values: timestamp 300 is written as the two bytes 241, 60
and read back, and `FromUint64(300)` followed by `ToUint64` gives 300. -/
theorem Timestamp_round_trip_witness :
    (300 : Nat) < 2 ^ 64 ∧
    Timestamp.EncodeTo { v := 300 } [] = [241, 60] ∧
    Timestamp.DecodeFrom { v := 0 } [241, 60] = (true, { v := 300 }, []) ∧
    (Timestamp.FromUint64 { v := 0 } 300).2.ToUint64 = 300 :=
  have h := Timestamp_round_trip { v := 300 } { v := 0 } (by norm_num)
  ⟨by norm_num, by decide, h.2.1, (h.2.2.2 300).2⟩

/-- C10 as stated fails: over a store whose key under the document key of
`"a"` is truncated, `SeekToKeyPrefix` returns Corruption and the existence
state afterwards is `kFalse`, the value of a resolved absent prefix. -/
theorem Corruption_leaves_kFalse :
    TruncatedStore.Seek ScenarioDocKey = some (ScenarioDocKey ++ [35, 255], [123]) ∧
    (SeekToKeyPrefix ModelCodec
      (ExampleState TruncatedStore [] ScenarioDocKey Trilean.kUnknown { v := 0 })).1 =
      Status.Corruption ∧
    (SeekToKeyPrefix ModelCodec
      (ExampleState TruncatedStore [] ScenarioDocKey Trilean.kUnknown
        { v := 0 })).2.subdoc_exists_ = Trilean.kFalse := by
  decide

/-- C10, amended.  When `SeekToKeyPrefix` returns Corruption the failure is
carried by the returned status alone: the existence state afterwards is
`kFalse` (there is no fourth, corrupted value), and the timestamp, the cache
and the key prefix are as before the call. -/
theorem SeekToKeyPrefix_corruption_state (c : KeyValueCodec) (it : InternalDocIterator)
    (hc : (SeekToKeyPrefix c it).1 = Status.Corruption) :
    (SeekToKeyPrefix c it).2.subdoc_exists_ = Trilean.kFalse ∧
    (SeekToKeyPrefix c it).2.subdoc_ts_ = it.subdoc_ts_ ∧
    (SeekToKeyPrefix c it).2.doc_write_batch_cache_ = it.doc_write_batch_cache_ ∧
    (SeekToKeyPrefix c it).2.key_prefix_ = it.key_prefix_ := by
  obtain ⟨hget, key, value, hseek, hpre, hlen⟩ := SeekToKeyPrefix_corruption_inv c it hc
  rw [SeekToKeyPrefix_eq_of_bad_length c it key value hget hseek hpre hlen]
  exact ⟨rfl, rfl, rfl, rfl⟩

/-- C10, amended, at a concrete state: the previous resolution was `kTrue` at
timestamp 4, the key found is truncated, and after the failing call the
existence state is `kFalse` and the timestamp is still 4. -/
theorem SeekToKeyPrefix_corruption_state_witness :
    (SeekToKeyPrefix ModelCodec
      (ExampleState TruncatedStore [] ScenarioDocKey Trilean.kTrue { v := 4 })).1 =
      Status.Corruption ∧
    (SeekToKeyPrefix ModelCodec
      (ExampleState TruncatedStore [] ScenarioDocKey Trilean.kTrue
        { v := 4 })).2.subdoc_exists_ = Trilean.kFalse ∧
    (SeekToKeyPrefix ModelCodec
      (ExampleState TruncatedStore [] ScenarioDocKey Trilean.kTrue
        { v := 4 })).2.subdoc_ts_ = { v := 4 } :=
  have h := SeekToKeyPrefix_corruption_state ModelCodec
    (ExampleState TruncatedStore [] ScenarioDocKey Trilean.kTrue { v := 4 }) (by decide)
  ⟨by decide, h.1, h.2.1⟩

/-! ### The properties C11 and C12 -/

/-- C11 (supersession is not transitive).  When a cache-miss seek discards the
entry found by supersession, the timestamp recorded afterwards is the one of
the discarded entry, below the one of the level above, and the existence state
is `kFalse`.  After a prefix append, the next seek compares against that
timestamp: an entry found under the deeper prefix, well formed and not in the
cache, whose timestamp is at least the discarded one resolves afresh (OK,
`kFalse` for a tombstone and `kTrue` otherwise) and is put in the cache,
whatever its order with the timestamp of the first level. -/
theorem Supersession_not_transitive (c : KeyValueCodec) (it : InternalDocIterator)
    (key value : Bytes) (subkey : PrimitiveValue) (key2 value2 : Bytes)
    (hget : it.doc_write_batch_cache_.Get it.key_prefix_ = none)
    (hseek : it.rocksdb.Seek it.key_prefix_ = some (key, value))
    (hpre : IsPrefixOf it.key_prefix_ key = true)
    (hlen : key.length = it.key_prefix_.length + 1 + c.kBytesPerTimestamp)
    (hprev : it.subdoc_exists_ ≠ Trilean.kUnknown)
    (hts : it.subdoc_ts_.v >
      (c.DecodeTimestampFromKey key (key.length - c.kBytesPerTimestamp)).v)
    (hget2 : it.doc_write_batch_cache_.Get (AppendToKey c subkey it.key_prefix_) = none)
    (hseek2 : it.rocksdb.Seek (AppendToKey c subkey it.key_prefix_) = some (key2, value2))
    (hpre2 : IsPrefixOf (AppendToKey c subkey it.key_prefix_) key2 = true)
    (hlen2 : key2.length =
      (AppendToKey c subkey it.key_prefix_).length + 1 + c.kBytesPerTimestamp)
    (hts2 : (c.DecodeTimestampFromKey key (key.length - c.kBytesPerTimestamp)).v ≤
      (c.DecodeTimestampFromKey key2 (key2.length - c.kBytesPerTimestamp)).v) :
    ((SeekToKeyPrefix c it).1 = Status.OK ∧
      (SeekToKeyPrefix c it).2.subdoc_exists_ = Trilean.kFalse ∧
      (SeekToKeyPrefix c it).2.subdoc_ts_ =
        c.DecodeTimestampFromKey key (key.length - c.kBytesPerTimestamp) ∧
      (SeekToKeyPrefix c it).2.subdoc_ts_.v < it.subdoc_ts_.v) ∧
    ((SeekToKeyPrefix c (AppendToPrefix c subkey (SeekToKeyPrefix c it).2)).1 = Status.OK ∧
      (SeekToKeyPrefix c (AppendToPrefix c subkey (SeekToKeyPrefix c it).2)).2.subdoc_exists_ =
        (if c.DecodeValueType value2 = ValueType.kTombstone then Trilean.kFalse
         else Trilean.kTrue) ∧
      (SeekToKeyPrefix c (AppendToPrefix c subkey (SeekToKeyPrefix c it).2)).2.subdoc_ts_ =
        c.DecodeTimestampFromKey key2 (key2.length - c.kBytesPerTimestamp) ∧
      (SeekToKeyPrefix c
        (AppendToPrefix c subkey (SeekToKeyPrefix c it).2)).2.doc_write_batch_cache_.Get
          (AppendToKey c subkey it.key_prefix_) =
        some (c.DecodeTimestampFromKey key2 (key2.length - c.kBytesPerTimestamp),
          c.DecodeValueType value2)) := by
  have h1 := SeekToKeyPrefix_eq_of_superseded c it key value hget hseek hpre hlen hprev hts
  have h2 := SeekToKeyPrefix_eq_of_fresh c (AppendToPrefix c subkey (SeekToKeyPrefix c it).2)
    key2 value2
    (by rw [h1]; exact hget2) (by rw [h1]; exact hseek2) (by rw [h1]; exact hpre2)
    (by rw [h1]; exact hlen2) (Or.inr (by rw [h1]; exact hts2))
  refine ⟨?_, ?_⟩
  · rw [h1]
    exact ⟨rfl, rfl, rfl, hts⟩
  · rw [h2, h1]
    exact ⟨rfl, rfl, rfl, DocWriteBatchCache.Get_Put _ _ _ _⟩

/-- C11 at the concrete store: the ancestor `"a"` at T=10, the child `"a.y"`
at T=5 and the grandchild `"a.y.z"` at T=7, an empty cache, and only prefix
appends between the seeks.  The three seeks resolve `kTrue`, `kFalse`, `kTrue`;
after the child is discarded the recorded timestamp is 5, not 10; and the
grandchild, older than the ancestor, is put in the cache. -/
theorem Supersession_not_transitive_witness :
    (ChainSeekRoot.1 = Status.OK ∧ ChainSeekRoot.2.subdoc_exists_ = Trilean.kTrue ∧
      ChainSeekRoot.2.subdoc_ts_ = { v := 10 }) ∧
    (ChainSeekChild.1 = Status.OK ∧ ChainSeekChild.2.subdoc_exists_ = Trilean.kFalse ∧
      ChainSeekChild.2.subdoc_ts_ = { v := 5 }) ∧
    (ChainSeekGrandchild.1 = Status.OK ∧
      ChainSeekGrandchild.2.subdoc_exists_ = Trilean.kTrue ∧
      ChainSeekGrandchild.2.subdoc_ts_ = { v := 7 } ∧
      ChainSeekGrandchild.2.doc_write_batch_cache_.Get ChainGrandchildKeyPrefix =
        some ({ v := 7 }, ValueType.kScalar ScalarKind.kString)) :=
  have h := Supersession_not_transitive ModelCodec ChainBeforeChild
    (ScenarioChildKey 5) [123] ChainGrandchildSubkey
    (ChainGrandchildKey 7) [36, 104, 101, 108, 108, 111]
    (by decide) (by decide) (by decide) (by decide) (by decide) (by decide)
    (by decide) (by decide) (by decide) (by decide) (by decide)
  ⟨by decide, ⟨h.1.1, h.1.2.1, by decide⟩, ⟨h.2.1, by decide, by decide, by decide⟩⟩

/-- C12 (frame of a not-found resolution).  On a cache miss, when the store has
no key at or after the prefix, or the first such key does not start with the
prefix, `SeekToKeyPrefix` returns OK with existence `kFalse` and leaves the
recorded timestamp, the key prefix, the cache and the store as they were; the
type becomes `kInvalidValueType`; the store iterator stands where the seek put
it; and a seek counter that is present has grown by exactly one, while an
absent one stays absent. -/
theorem SeekToKeyPrefix_not_found_frame (c : KeyValueCodec) (it : InternalDocIterator)
    (hget : it.doc_write_batch_cache_.Get it.key_prefix_ = none)
    (hseek : it.rocksdb.Seek it.key_prefix_ = none ∨
      ∃ key value, it.rocksdb.Seek it.key_prefix_ = some (key, value) ∧
        IsPrefixOf it.key_prefix_ key = false) :
    (SeekToKeyPrefix c it).1 = Status.OK ∧
    (SeekToKeyPrefix c it).2.subdoc_exists_ = Trilean.kFalse ∧
    (SeekToKeyPrefix c it).2.subdoc_ts_ = it.subdoc_ts_ ∧
    (SeekToKeyPrefix c it).2.subdoc_type_ = ValueType.kInvalidValueType ∧
    (SeekToKeyPrefix c it).2.key_prefix_ = it.key_prefix_ ∧
    (SeekToKeyPrefix c it).2.doc_write_batch_cache_ = it.doc_write_batch_cache_ ∧
    (SeekToKeyPrefix c it).2.rocksdb = it.rocksdb ∧
    (SeekToKeyPrefix c it).2.iter_ = it.rocksdb.Seek it.key_prefix_ ∧
    (∀ n : Int, it.num_rocksdb_seeks_ = some n →
      (SeekToKeyPrefix c it).2.num_rocksdb_seeks_ = some (n + 1)) ∧
    (it.num_rocksdb_seeks_ = none → (SeekToKeyPrefix c it).2.num_rocksdb_seeks_ = none) ∧
    (SeekToKeyPrefix c it).2.num_rocksdb_seeks_ =
      it.num_rocksdb_seeks_.map (fun n => n + 1) := by
  rcases hseek with hnone | ⟨key, value, hsome, hpre⟩
  · rw [SeekToKeyPrefix_eq_of_no_key c it hget hnone]
    refine ⟨rfl, rfl, rfl, rfl, rfl, rfl, rfl, hnone.symm, ?_, ?_, rfl⟩
    · intro n hn
      simp [hn]
    · intro hn
      simp [hn]
  · rw [SeekToKeyPrefix_eq_of_other_key c it key value hget hsome hpre]
    refine ⟨rfl, rfl, rfl, rfl, rfl, rfl, rfl, hsome.symm, ?_, ?_, rfl⟩
    · intro n hn
      simp [hn]
    · intro hn
      simp [hn]

/-- C12 at a concrete state: the level above resolved `kTrue` at timestamp 1
with an object type and the counter at 0; the prefix of `"a.x"` is not in the
store of the scenario; after the seek the timestamp is still 1, the type is
`kInvalidValueType`, the cache is still empty and the counter is 1. -/
theorem SeekToKeyPrefix_not_found_frame_witness :
    (ScenarioStore1.Seek (AppendToKey ModelCodec (PrimitiveValue.String [120]) ScenarioDocKey) =
        some (ScenarioChildKey 2, [36, 104, 101, 108, 108, 111]) ∧
      IsPrefixOf (AppendToKey ModelCodec (PrimitiveValue.String [120]) ScenarioDocKey)
        (ScenarioChildKey 2) = false) ∧
    (SeekToKeyPrefix ModelCodec
      (ExampleState ScenarioStore1 []
        (AppendToKey ModelCodec (PrimitiveValue.String [120]) ScenarioDocKey)
        Trilean.kTrue { v := 1 })).2.subdoc_ts_ = { v := 1 } ∧
    (SeekToKeyPrefix ModelCodec
      (ExampleState ScenarioStore1 []
        (AppendToKey ModelCodec (PrimitiveValue.String [120]) ScenarioDocKey)
        Trilean.kTrue { v := 1 })).2.subdoc_type_ = ValueType.kInvalidValueType ∧
    (SeekToKeyPrefix ModelCodec
      (ExampleState ScenarioStore1 []
        (AppendToKey ModelCodec (PrimitiveValue.String [120]) ScenarioDocKey)
        Trilean.kTrue { v := 1 })).2.doc_write_batch_cache_ = [] ∧
    (SeekToKeyPrefix ModelCodec
      (ExampleState ScenarioStore1 []
        (AppendToKey ModelCodec (PrimitiveValue.String [120]) ScenarioDocKey)
        Trilean.kTrue { v := 1 })).2.num_rocksdb_seeks_ = some 1 :=
  have h := SeekToKeyPrefix_not_found_frame ModelCodec
    (ExampleState ScenarioStore1 []
      (AppendToKey ModelCodec (PrimitiveValue.String [120]) ScenarioDocKey)
      Trilean.kTrue { v := 1 })
    (by decide)
    (Or.inr ⟨ScenarioChildKey 2, [36, 104, 101, 108, 108, 111], by decide, by decide⟩)
  ⟨by decide, h.2.2.1, h.2.2.2.1, h.2.2.2.2.2.1, h.2.2.2.2.2.2.2.2.1 0 rfl⟩

end docdb

namespace master

open SysCatalogWriter

/-! ### The property C13 -/

/-- An entry type in the range of `int8_t` is passed to `SetInt8Value`
unchanged. -/
theorem ToInt8_of_range (n : Int) (hlo : -128 ≤ n) (hhi : n ≤ 127) : ToInt8 n = n := by
  unfold ToInt8
  omega

/-- C13 (`MutateItem`).  For every environment, writer, item and statement
type: the call returns Corruption exactly when the statement is INSERT or
UPDATE and serialization fails; it returns NotFound exactly when the statement
is INSERT or UPDATE, serialization succeeds and the metadata column is not in
the schema; it returns OK in every other case, so always for DELETE.  When it
returns OK, the request holds the earlier writes followed by exactly one new
write, with the statement type, the two range column values int8 entry type
and binary item id in that order, and as column values the serialized
metadata under the id of the metadata column for INSERT and UPDATE and nothing
for DELETE; the tablet id, the schema and the leader term are unchanged. -/
theorem MutateItem_result {PB : Type} (env : CatalogEnv PB) (w : SysCatalogWriter)
    (item : MetadataCowWrapper PB) (op_type : QLStmtType) :
    ((MutateItem env w item op_type).1 = Status.Corruption ↔
      ((op_type = QLStmtType.QL_STMT_INSERT ∨ op_type = QLStmtType.QL_STMT_UPDATE) ∧
        env.SerializeToString item.pb = none)) ∧
    ((MutateItem env w item op_type).1 = Status.NotFound ↔
      ((op_type = QLStmtType.QL_STMT_INSERT ∨ op_type = QLStmtType.QL_STMT_UPDATE) ∧
        (∃ metadata_buf, env.SerializeToString item.pb = some metadata_buf) ∧
        w.schema_with_ids_.find_column env.kSysCatalogTableColMetadata =
          env.kColumnNotFound)) ∧
    ((MutateItem env w item op_type).1 = Status.OK ↔
      (op_type = QLStmtType.QL_STMT_DELETE ∨
        ((∃ metadata_buf, env.SerializeToString item.pb = some metadata_buf) ∧
          w.schema_with_ids_.find_column env.kSysCatalogTableColMetadata ≠
            env.kColumnNotFound))) ∧
    ((MutateItem env w item op_type).1 = Status.OK →
      ∃ ql_write : QLWriteRequestPB,
        (MutateItem env w item op_type).2.req_.ql_write_batch =
          w.req_.ql_write_batch ++ [ql_write] ∧
        ql_write.type = some op_type ∧
        ql_write.range_column_values =
          [{ value := QLValuePB.int8_value (ToInt8 item.entry_type) },
            { value := QLValuePB.binary_value item.id }] ∧
        ((op_type = QLStmtType.QL_STMT_INSERT ∨ op_type = QLStmtType.QL_STMT_UPDATE) →
          ∃ metadata_buf, env.SerializeToString item.pb = some metadata_buf ∧
            ql_write.column_values =
              [{ column_id := some (w.schema_with_ids_.column_id
                    (w.schema_with_ids_.find_column env.kSysCatalogTableColMetadata)),
                 expr := { value := QLValuePB.binary_value metadata_buf } }]) ∧
        (op_type = QLStmtType.QL_STMT_DELETE → ql_write.column_values = []) ∧
        (MutateItem env w item op_type).2.req_.tablet_id = w.req_.tablet_id ∧
        (MutateItem env w item op_type).2.leader_term_ = w.leader_term_) := by
  cases hser : env.SerializeToString item.pb with
  | none =>
    cases op_type <;> simp [MutateItem, SetColumnId, SetBinaryValue, SetInt8Value, StoreWrite, hser]
  | some metadata_buf =>
    by_cases hfind : w.schema_with_ids_.find_column env.kSysCatalogTableColMetadata =
        env.kColumnNotFound
    · cases op_type <;>
        simp [MutateItem, SetColumnId, SetBinaryValue, SetInt8Value, StoreWrite, hser, hfind]
    · cases op_type <;>
        simp [MutateItem, SetColumnId, SetBinaryValue, SetInt8Value, StoreWrite, hser, hfind]

/-- C13 at concrete inputs over the example writer, whose request already
holds one write: an INSERT of the example item returns OK and appends one
write with the metadata under column id 12 and the range values 4 and `t1`; a
DELETE returns OK and appends a write without column values; an UPDATE of an
item that does not serialize returns Corruption; an UPDATE when the metadata
column is not in the schema returns NotFound. -/
theorem MutateItem_result_witness :
    ((MutateItem ExampleEnv ExampleWriter ExampleItem QLStmtType.QL_STMT_INSERT).1 = Status.OK ∧
      (MutateItem ExampleEnv ExampleWriter ExampleItem
          QLStmtType.QL_STMT_INSERT).2.req_.ql_write_batch =
        ExampleWriter.req_.ql_write_batch ++
          [{ type := some QLStmtType.QL_STMT_INSERT
             column_values :=
               [{ column_id := some 12, expr := { value := QLValuePB.binary_value "pb-bytes" } }]
             range_column_values := [{ value := QLValuePB.int8_value 4 },
               { value := QLValuePB.binary_value "t1" }] }]) ∧
    ((MutateItem ExampleEnv ExampleWriter ExampleItem QLStmtType.QL_STMT_DELETE).1 = Status.OK ∧
      (MutateItem ExampleEnv ExampleWriter ExampleItem
          QLStmtType.QL_STMT_DELETE).2.req_.ql_write_batch =
        ExampleWriter.req_.ql_write_batch ++
          [{ type := some QLStmtType.QL_STMT_DELETE
             column_values := []
             range_column_values := [{ value := QLValuePB.int8_value 4 },
               { value := QLValuePB.binary_value "t1" }] }]) ∧
    (MutateItem ExampleEnv ExampleWriter { id := "t1", pb := "", entry_type := 4 }
      QLStmtType.QL_STMT_UPDATE).1 = Status.Corruption ∧
    (MutateItem { ExampleEnv with kSysCatalogTableColMetadata := "absent" }
      ExampleWriter ExampleItem QLStmtType.QL_STMT_UPDATE).1 = Status.NotFound :=
  have h := MutateItem_result ExampleEnv ExampleWriter ExampleItem QLStmtType.QL_STMT_INSERT
  have hok := h.2.2.1.mpr (Or.inr ⟨⟨"pb-bytes", by decide⟩, by decide⟩)
  ⟨⟨hok, by decide⟩, by decide, by decide, by decide⟩

end master

end yb
